import Mathlib

/-!
# mediascore: rating resolution, cache keys and cache stores

A shallow embedding of `ratings.go`, `cache.go`, `common.go`, `rt.go`, `mc.go`, and of the
aggregator loop and the worker `getMovieInfo` of `main.go`.

* Go strings are Lean strings; a byte slice is a list of naturals below 256.
* The network, the OMDb client, `getImdbId` and the HTML documents are parameters
  collected in `World`; every theorem quantifies over them.
* A `*storm.DB` handle is `Option DB`, where `none` is the nil handle of a store that
  failed to open, and a store is the list of its records with insert-or-replace by `Id`.
* Sending on the render channel appends to the `sent` list of the outcome; every call to a
  cache probe or to a provider is recorded in the `trace` of the outcome.
* The float conversion of the Metacritic user score is a field of `World`;
  `parseFloat32Times10` is its exact value on plain decimal numerals, computed with
  integer arithmetic.
* The filename parser is a parameter of `getMovieInfo`.
-/

namespace MediaScore

/-! ## crypto/sha256 -/

/-- Round constants of SHA-256 (FIPS 180-4 §4.2.2). -/
def sha256K : List Nat :=
  [0x428a2f98, 0x71374491, 0xb5c0fbcf, 0xe9b5dba5, 0x3956c25b, 0x59f111f1, 0x923f82a4, 0xab1c5ed5,
   0xd807aa98, 0x12835b01, 0x243185be, 0x550c7dc3, 0x72be5d74, 0x80deb1fe, 0x9bdc06a7, 0xc19bf174,
   0xe49b69c1, 0xefbe4786, 0x0fc19dc6, 0x240ca1cc, 0x2de92c6f, 0x4a7484aa, 0x5cb0a9dc, 0x76f988da,
   0x983e5152, 0xa831c66d, 0xb00327c8, 0xbf597fc7, 0xc6e00bf3, 0xd5a79147, 0x06ca6351, 0x14292967,
   0x27b70a85, 0x2e1b2138, 0x4d2c6dfc, 0x53380d13, 0x650a7354, 0x766a0abb, 0x81c2c92e, 0x92722c85,
   0xa2bfe8a1, 0xa81a664b, 0xc24b8b70, 0xc76c51a3, 0xd192e819, 0xd6990624, 0xf40e3585, 0x106aa070,
   0x19a4c116, 0x1e376c08, 0x2748774c, 0x34b0bcb5, 0x391c0cb3, 0x4ed8aa4a, 0x5b9cca4f, 0x682e6ff3,
   0x748f82ee, 0x78a5636f, 0x84c87814, 0x8cc70208, 0x90befffa, 0xa4506ceb, 0xbef9a3f7, 0xc67178f2]

/-- Initial hash value of SHA-256 (FIPS 180-4 §5.3.3). -/
def sha256Init : List Nat :=
  [0x6a09e667, 0xbb67ae85, 0x3c6ef372, 0xa54ff53a, 0x510e527f, 0x9b05688c, 0x1f83d9ab, 0x5be0cd19]

/-- Right rotation of a 32-bit word. -/
def rotr32 (x n : Nat) : Nat := ((x >>> n) ||| (x <<< (32 - n))) % 2 ^ 32

/-- Addition of 32-bit words. -/
def add32 (a b : Nat) : Nat := (a + b) % 2 ^ 32

/-- Message padding: a 0x80 byte, zero bytes up to 56 mod 64, the bit length as 8 big-endian bytes. -/
def sha256Pad (msg : List Nat) : List Nat :=
  let l := msg.length
  let bits := 8 * l
  msg ++ [0x80] ++ List.replicate ((119 - l % 64) % 64) 0 ++
    (List.range 8).map (fun i => (bits >>> (8 * (7 - i))) % 256)

/-- Big-endian 32-bit words of a byte list (a trailing partial word is dropped). -/
def beWords : List Nat → List Nat
  | a :: b :: c :: d :: rest => (((a * 256 + b) * 256 + c) * 256 + d) :: beWords rest
  | _ => []

/-- Extends the schedule by n words; the schedule is kept newest-first. -/
def sha256Extend : Nat → List Nat → List Nat
  | 0, w => w
  | n + 1, w =>
    let w2 := w.getD 1 0
    let w7 := w.getD 6 0
    let w15 := w.getD 14 0
    let w16 := w.getD 15 0
    let s0 := rotr32 w15 7 ^^^ rotr32 w15 18 ^^^ (w15 >>> 3)
    let s1 := rotr32 w2 17 ^^^ rotr32 w2 19 ^^^ (w2 >>> 10)
    sha256Extend n (add32 (add32 (add32 s1 w7) s0) w16 :: w)

/-- One compression round on the working variables [a, b, c, d, e, f, g, h]. -/
def sha256Round (v : List Nat) (kw : Nat × Nat) : List Nat :=
  match v with
  | [a, b, c, d, e, f, g, h] =>
    let s1 := rotr32 e 6 ^^^ rotr32 e 11 ^^^ rotr32 e 25
    let ch := (e &&& f) ^^^ ((e ^^^ (2 ^ 32 - 1)) &&& g)
    let t1 := add32 (add32 (add32 (add32 h s1) ch) kw.1) kw.2
    let s0 := rotr32 a 2 ^^^ rotr32 a 13 ^^^ rotr32 a 22
    let maj := (a &&& b) ^^^ (a &&& c) ^^^ (b &&& c)
    let t2 := add32 s0 maj
    [add32 t1 t2, a, b, c, add32 d t1, e, f, g]
  | _ => v

/-- Compression of one 16-word block into the chaining value. -/
def sha256Block (h : List Nat) (block : List Nat) : List Nat :=
  let w := (sha256Extend 48 block.reverse).reverse
  let v := (sha256K.zip w).foldl sha256Round h
  List.zipWith add32 h v

/-- Splits a word list into 16-word blocks (structural in the fuel). -/
def chunks16 : Nat → List Nat → List (List Nat)
  | 0, _ => []
  | n + 1, ws => if ws.length < 16 then [] else ws.take 16 :: chunks16 n (ws.drop 16)

/-- SHA-256 of a byte list, as the 32 digest bytes. -/
def sha256 (msg : List Nat) : List Nat :=
  let ws := beWords (sha256Pad msg)
  let h := (chunks16 ws.length ws).foldl sha256Block sha256Init
  h.flatMap (fun x => [(x >>> 24) % 256, (x >>> 16) % 256, (x >>> 8) % 256, x % 256])

/-- UTF-8 encoding of one character, as bytes. -/
def utf8Bytes (c : Char) : List Nat :=
  let n := c.toNat
  if n < 0x80 then [n]
  else if n < 0x800 then [0xC0 + n / 64, 0x80 + n % 64]
  else if n < 0x10000 then [0xE0 + n / 4096, 0x80 + n / 64 % 64, 0x80 + n % 64]
  else [0xF0 + n / 262144, 0x80 + n / 4096 % 64, 0x80 + n / 64 % 64, 0x80 + n % 64]

/-- Bytes of a Go string: the UTF-8 encoding of its characters. -/
def stringBytes (s : String) : List Nat := s.toList.flatMap utf8Bytes

/-! ## common.go -/

/-- The strconv.Itoa conversion: decimal form, with a leading minus sign for negatives. -/
def itoa (i : Int) : String := toString i

/-- Wraps an integer into the range of a 64-bit Go int. -/
def wrapInt64 (i : Int) : Int := (i + 2 ^ 63) % 2 ^ 64 - 2 ^ 63

/-- Drops one leading sign character, if there is one. -/
def stripSign : List Char → List Char
  | '-' :: r => r
  | '+' :: r => r
  | cs => cs

/-- The strconv.Atoi conversion on a 64-bit platform: an optional sign, then at least one
decimal digit and nothing else, with a value inside the int64 range. -/
def atoi (s : String) : Except String Int :=
  let cs := s.toList
  let neg : Bool := cs.head? = some '-'
  let ds := stripSign cs
  if ds.isEmpty || !ds.all Char.isDigit then .error "invalid syntax"
  else
    let n : Nat := ds.foldl (fun a c => a * 10 + (c.toNat - 48)) 0
    if neg then (if n ≤ 2 ^ 63 then .ok (-(n : Int)) else .error "value out of range")
    else (if n < 2 ^ 63 then .ok (n : Int) else .error "value out of range")

/-- Returns integer converted to string except for zero, which results in an empty string. -/
def zString (input : Int) : String :=
  if input = 0 then "" else itoa input

/-- Returns true if strconv.Atoi converts the string without any error. -/
def isInt (v : String) : Bool :=
  match atoi v with
  | .error _ => false
  | .ok _ => true

/-- The part of a goquery document the scrapers read: the text of the first match of a
selector, and an attribute of the first match of a selector. -/
structure Document where
  text : String → String
  attr : String → String → Option String

/-- An HTTP response: status code, the request URL as the client renders it, and the body. -/
structure Response where
  StatusCode : Int
  Url : String
  Body : String

/-- The fields of gomdb.QueryData. -/
structure QueryData where
  Title : String := ""
  Year : String := ""
  ImdbId : String := ""
  SearchType : String := ""
  Season : String := ""
  Episode : String := ""
deriving DecidableEq, Repr

/-- The fields of gomdb.MovieResult that the resolver reads. -/
structure MovieResult where
  Title : String := ""
  Year : String := ""
  ImdbRating : String := ""
  TomatoRating : String := ""
  TomatoURL : String := ""
deriving DecidableEq, Repr

/-- Everything outside the program: the HTTP client and HTML parser used by getMediaDoc, the
OMDb client, the IMDB identifier lookup, and the float conversion of the user score. -/
structure World where
  /-- The http.NewRequest call ("GET", url): an error, or the request. -/
  newRequest : String → Except String Unit
  /-- The client.Do call with the Referer header set: url, referer. -/
  clientDo : String → String → Except String Response
  /-- The goquery.NewDocumentFromReader call on a response body. -/
  newDocumentFromReader : String → Except String Document
  /-- The api.MovieByTitle call. -/
  movieByTitle : QueryData → Except String MovieResult
  /-- The api.MovieByImdbID call. -/
  movieByImdbID : QueryData → Except String MovieResult
  /-- The getImdbId lookup (title, year) of the repository, whose source is not at hand. -/
  getImdbId : String → Int → Except String String
  /-- The strconv.ParseFloat call (bit size 32) followed, on success, by int(f*10). -/
  parseFloatTimes10 : String → Except String Int

/-- For a given URL does a HTTP GET and returns ready goquery document. -/
def getMediaDoc (w : World) (url refUrl : String) : Except String Document :=
  match w.newRequest url with
  | .error e => .error e
  | .ok _ =>
    match w.clientDo url refUrl with
    | .error e => .error e
    | .ok res =>
      if res.StatusCode ≠ 200 then
        .error ("HTTP error " ++ itoa res.StatusCode ++ " for URL: " ++ res.Url)
      else
        match w.newDocumentFromReader res.Body with
        | .error e => .error e
        | .ok doc => .ok doc

/-! ## The functions of package strings used by the scrapers -/

/-- The unicode.IsSpace predicate. -/
def isSpace (c : Char) : Bool :=
  let n := c.toNat
  (9 ≤ n && n ≤ 13) || n = 0x20 || n = 0x85 || n = 0xA0 || n = 0x1680 ||
    (0x2000 ≤ n && n ≤ 0x200A) || n = 0x2028 || n = 0x2029 || n = 0x202F || n = 0x205F ||
    n = 0x3000

/-- Drops the leading and the trailing characters that satisfy p. -/
def trimFunc (p : Char → Bool) (s : String) : String :=
  String.mk ((s.toList.dropWhile p).reverse.dropWhile p).reverse

/-- The strings.TrimSpace function. -/
def trimSpace (s : String) : String := trimFunc isSpace s

/-- The strings.Trim function for a cutset of one character. -/
def trimChar (s : String) (cut : Char) : String := trimFunc (fun c => c == cut) s

/-- The first element of strings.Split(s, " "): the text before the first space. -/
def splitSpaceFirst (s : String) : String :=
  String.mk (s.toList.takeWhile (fun c => c != ' '))

/-! ## rt.go -/

def rtBaseUrl : String := "https://www.rottentomatoes.com"
def rtTvScoreSelector : String := ".superPageFontColor.meter-align"
def rtMovieScoreSelector : String :=
  "span.mop-ratings-wrap__percentage.mop-ratings-wrap__percentage--audience"

/-- Creates a RT-compatible media title, encoding spaces with underscore and removing colons. -/
def getRtName (mediaTitle : String) : String :=
  String.mk ((mediaTitle.toList.map (fun c => if c = ' ' then '_' else c)).filter
    (fun c => c != ':'))

/-- Generate RT media URL if OMDb doesn't provide it (getRtScore, lines 34-42): the value of
tomatoUrl that getRtScore passes to getMediaDoc. -/
def rtMediaUrl (mediaTitle omdbTitle : String) (mediaSeason : Int) (tomatoUrl : String)
    (isTv : Bool) : String :=
  if tomatoUrl = "" ∨ tomatoUrl = "N/A" then
    if isTv then rtBaseUrl ++ "/tv/" ++ getRtName mediaTitle ++ ("/s" ++ itoa mediaSeason)
    else rtBaseUrl ++ "/m/" ++ getRtName omdbTitle
  else tomatoUrl

/-- Gets RottenTomatoes score. -/
def getRtScore (w : World) (mediaTitle omdbTitle : String) (mediaSeason : Int)
    (tomatoUrl : String) (isTv : Bool) : Except String String :=
  -- Generate RT media URL if OMDb doesn't provide it
  let tomatoUrl := rtMediaUrl mediaTitle omdbTitle mediaSeason tomatoUrl isTv
  match getMediaDoc w tomatoUrl rtBaseUrl with
  | .error e => .error e
  | .ok doc =>
    -- Extract RT rating
    let rating := if isTv then doc.text rtTvScoreSelector else doc.text rtMovieScoreSelector
    -- Cleanup newlines, get first number, cleanup percentage signs
    let rating := trimChar (trimChar (splitSpaceFirst (trimSpace rating)) (Char.ofNat 10)) '%'
    if rating = "" ∨ isInt rating = false then .ok "N/A" else .ok rating

/-! ## mc.go -/

def mcBaseUrl : String := "https://www.metacritic.com"
def mcRefUrl : String := "http://www.metacritic.com/advanced-search"
def mcResultLink : String := ".result a[href]"
def mcMetaScoreSelector : String := ".phead_summary .metascore_w"
def mcUserScoreSelector : String := ".metascore_w.user"

/-- Creates a MC search filter with +1 year from a given date. -/
def getMcYearRange (mediaYear : Int) : String :=
  "/results?date_range_from=01-01-" ++ itoa mediaYear ++ "&date_range_to=30-12-" ++
    itoa (wrapInt64 (mediaYear + 1)) ++ "&search_type=advanced"

/-- Creates a season suffix for MC TV media page. -/
def getMcSeason (mediaSeason : Int) : String := "/season-" ++ itoa mediaSeason

/-- Initiates MetaScore search for media, gets MetaScore and if it is not available yet gets
UserScore. -/
def getMcScore (w : World) (mediaTitle omdbTitle : String)
    (mediaYear mediaSeason _mediaEpisode : Int) (isTv : Bool) : Except String String :=
  -- Always generate MC URL as OMDb doesn't provide it
  let mcUrl :=
    if isTv then mcBaseUrl ++ "/search/tv/" ++ mediaTitle ++ getMcYearRange mediaYear
    else mcBaseUrl ++ "/search/movie/" ++ omdbTitle ++ getMcYearRange mediaYear
  match getMediaDoc w mcUrl mcRefUrl with
  | .error e => .error e
  | .ok doc =>
    -- Find first MC media page link in search results
    match doc.attr mcResultLink "href" with
    | none => .ok "N/A"
    | some str =>
      let mcUrl := mcBaseUrl ++ str
      -- If it's TV then append relevant season
      let mcUrl := if isTv then mcUrl ++ getMcSeason mediaSeason else mcUrl
      match getMediaDoc w mcUrl mcRefUrl with
      | .error e => .error e
      | .ok doc =>
        -- Find MetaScore rating
        let rating := doc.text mcMetaScoreSelector
        if rating = "" ∨ isInt rating = false then
          -- If we don't have MetaScore, extract UserScore
          let userRating := doc.text mcUserScoreSelector
          if userRating ≠ "" then
            match w.parseFloatTimes10 userRating with
            | .error _ => .ok "N/A"
            -- At least emulate the same range as MetaScore
            | .ok f10 => .ok (itoa f10)
          else .ok "N/A"
        else .ok rating

/-! ## cache.go -/

/-- Holds Movie/TV media information, Id hash (which is SHA256 hash of (Title,Year) for Movie
or (Title,Year,Season,Episode)), basename hash etc. -/
structure CacheEntry where
  Id : List Nat := []
  BaseNameHash : List Nat := []
  Title : String := ""
  Year : String := ""
  EpisodeTitle : String := ""
  Season : String := ""
  EpisodeNr : String := ""
  ImdbRating : String := ""
  RtRating : String := ""
  McRating : String := ""
  IsTv : Bool := false
deriving DecidableEq, Repr

/-- The message unit of the render channel (common.go). -/
structure renderTable where
  isCached : Bool
  data : CacheEntry
deriving DecidableEq, Repr

/-- An open storm database of CacheEntry records: a map keyed by Id, kept as the list of its
records, with the secondary index on BaseNameHash read off the same list. -/
abbrev DB := List CacheEntry

/-- The Save method of storm: insert-or-replace keyed by Id. -/
def DB.save (db : DB) (e : CacheEntry) : DB :=
  e :: db.filter (fun x => decide (x.Id ≠ e.Id))

/-- The One method of storm for the two fields the program probes: the record under an Id, or
the first record whose BaseNameHash matches. -/
def DB.one (db : DB) (fieldName : String) (value : List Nat) : Except String CacheEntry :=
  let found :=
    if fieldName = "Id" then db.find? (fun x => decide (x.Id = value))
    else if fieldName = "BaseNameHash" then db.find? (fun x => decide (x.BaseNameHash = value))
    else none
  match found with
  | none => .error "not found"
  | some e => .ok e

/-- The buffer that getCacheKey fills: the parts written one after the other. -/
def getCacheKeyBuf (vars : List String) : String :=
  vars.foldl (fun buf v => buf ++ v) ""

/-- Creates SHA256 hash out of any number of concatenated string slices. -/
def getCacheKey (vars : List String) : List Nat :=
  sha256 (stringBytes (getCacheKeyBuf vars))

/-- The error of the three cache functions on a nil handle. -/
def errCacheNotInitialized : String := "cache not successfully initialized"

/-- Closes Movie/TV cache (storm/bbolt database) if it is initialized. Returns the error and
the handle afterwards. -/
def closeCache (db : Option DB) : Option String × Option DB :=
  match db with
  | none => (some errCacheNotInitialized, none)
  | some s => (none, some s)

/-- Saves renderTable data into Movie/TV cache (storm/bbolt database). Returns the error and
the store afterwards. -/
def updateCache (db : Option DB) (v : renderTable) : Option String × Option DB :=
  match db with
  | none => (some errCacheNotInitialized, none)
  | some s => (none, some (s.save v.data))

/-- Returns a single cache entry matching value with fieldName contents in the cache
(storm/bbolt database). Returns the error and the contents of the output record (the parameter named to in the source). -/
def getCacheOne (db : Option DB) (fieldName : String) (value : List Nat) (dest : CacheEntry) :
    Option String × CacheEntry :=
  match db with
  | none => (some errCacheNotInitialized, dest)
  | some s =>
    match s.one fieldName value with
    | .error e => (some e, dest)
    | .ok e => (none, e)

/-! ## ratings.go -/

/-- The search types of gomdb. -/
def MovieSearch : String := "movie"
def EpisodeSearch : String := "episode"

/-- One observable action of getRatings: a cache probe (getCacheOne on the TV store when
tvStore is true, on the movie store otherwise) or a call to a provider. -/
inductive Event where
  | cacheOne (tvStore : Bool) (fieldName : String) (value : List Nat)
  | movieByTitle (query : QueryData)
  | getImdbId (mediaTitle : String) (mediaYear : Int)
  | movieByImdbID (query : QueryData)
  | getRtScore (mediaTitle omdbTitle : String) (mediaSeason : Int) (tomatoUrl : String)
      (isTv : Bool)
  | getMcScore (mediaTitle omdbTitle : String) (mediaYear mediaSeason mediaEpisode : Int)
      (isTv : Bool)
deriving DecidableEq, Repr

/-- Whether the event is a request to OMDb, IMDB, RottenTomatoes or Metacritic. -/
def Event.isProviderCall : Event → Bool
  | .cacheOne _ _ _ => false
  | _ => true

/-- What one call of getRatings did: the records sent on the channel, the returned error
(none for nil), and the probes and provider calls in the order they were made. -/
structure Outcome where
  sent : List renderTable
  err : Option String
  trace : List Event
deriving DecidableEq, Repr

/-- Prepare OMDb query (getRatings, lines 56-70): the query and the isTv flag. -/
def prepareQuery (mediaTitle : String) (mediaYear mediaSeason mediaEpisode : Int) :
    QueryData × Bool :=
  let query : QueryData := { Title := mediaTitle, Year := zString mediaYear }
  if mediaSeason > 0 ∧ mediaEpisode > 0 then
    ({ query with Season := zString mediaSeason, Episode := zString mediaEpisode,
                  SearchType := EpisodeSearch }, true)
  else
    ({ query with SearchType := MovieSearch }, false)

/-- OMDb query by title, then IMDB lookup and OMDb query by IMDB Id (getRatings, lines
72-92): the error returned by getRatings or the OMDb result with the query as it stands
afterwards, and the provider calls made. -/
def queryOmdb (w : World) (query : QueryData) (mediaTitle : String) (mediaYear : Int) :
    Except String (MovieResult × QueryData) × List Event :=
  match w.movieByTitle query with
  | .ok res => (.ok (res, query), [.movieByTitle query])
  | .error _ =>
    -- IMDB query by title
    match w.getImdbId mediaTitle mediaYear with
    | .error err => (.error err, [.movieByTitle query, .getImdbId mediaTitle mediaYear])
    | .ok imdbID =>
      -- do another OMDb query by IMDB Id (type "i")
      let query' := { query with ImdbId := imdbID }
      match w.movieByImdbID query' with
      | .error err =>
        (.error err,
          [.movieByTitle query, .getImdbId mediaTitle mediaYear, .movieByImdbID query'])
      | .ok res =>
        (.ok (res, query'),
          [.movieByTitle query, .getImdbId mediaTitle mediaYear, .movieByImdbID query'])

/-- The key of the identity cache probe (getRatings, lines 94-116): hash(Title, Year, Season,
Episode) in the TV branch and hash(Title, Year) in the movie branch, with the operands each
branch passes to getCacheKey. -/
def identityKey (isTv : Bool) (mediaTitle : String) (res : MovieResult) (query : QueryData) :
    List Nat :=
  if isTv then getCacheKey [mediaTitle, res.Year, query.Season, query.Episode]
  else getCacheKey [mediaTitle, query.Year]

/-- RottenTomatoes and Metacritic scraping, then assembly of the record (getRatings, lines
118-146): the message sent on the channel and the provider calls made. -/
def resolveFresh (w : World) (baseName mediaTitle : String)
    (mediaYear mediaSeason mediaEpisode : Int) (query : QueryData) (res : MovieResult)
    (isTv : Bool) : renderTable × List Event :=
  -- RottenTomatoes scraping: only if OMDb doesn't have RT score
  let rtStep : MovieResult × List Event :=
    if res.TomatoRating = "N/A" then
      match getRtScore w mediaTitle res.Title mediaSeason res.TomatoURL isTv with
      | .error _ => (res, [.getRtScore mediaTitle res.Title mediaSeason res.TomatoURL isTv])
      | .ok rt =>
        ({ res with TomatoRating := rt },
          [.getRtScore mediaTitle res.Title mediaSeason res.TomatoURL isTv])
    else (res, [])
  let res := rtStep.1
  -- Metacritic scraping
  let metaCriticRating :=
    match getMcScore w mediaTitle res.Title mediaYear mediaSeason mediaEpisode isTv with
    | .error _ => "N/A"
    | .ok r => r
  let mcEvent := Event.getMcScore mediaTitle res.Title mediaYear mediaSeason mediaEpisode isTv
  -- We now have all data, send it to rendering and set cache flag to yes
  let cacheEntry : CacheEntry :=
    if isTv then
      { Title := mediaTitle, Year := res.Year, EpisodeTitle := res.Title,
        Season := query.Season, EpisodeNr := query.Episode, ImdbRating := res.ImdbRating,
        RtRating := res.TomatoRating, McRating := metaCriticRating,
        BaseNameHash := getCacheKey [baseName], IsTv := isTv,
        Id := getCacheKey [mediaTitle, res.Year, query.Season, query.Episode] }
    else
      { Title := mediaTitle, Year := res.Year, ImdbRating := res.ImdbRating,
        RtRating := res.TomatoRating, McRating := metaCriticRating,
        BaseNameHash := getCacheKey [baseName], IsTv := isTv,
        Id := getCacheKey [mediaTitle, res.Year] }
  ({ isCached := false, data := cacheEntry }, rtStep.2 ++ [mcEvent])

/-- Gathers OMDb, IMDB, RottenTomatoes and MediaCritic information about given media title
with optional year, season and episode information and fully populated information structure
is sent to rendering channel. The two store handles are the globals cacheTv and cacheMovie. -/
def getRatings (w : World) (cacheTv cacheMovie : Option DB) (baseName mediaTitle : String)
    (mediaYear mediaSeason mediaEpisode : Int) : Outcome :=
  -- Initial cache lookup with filename hash: lookup in both cache tables
  let cacheEntry : CacheEntry := {}
  let baseNameHash := getCacheKey [baseName]
  let probeTv := Event.cacheOne true "BaseNameHash" baseNameHash
  let probeMovie := Event.cacheOne false "BaseNameHash" baseNameHash
  match getCacheOne cacheTv "BaseNameHash" baseNameHash cacheEntry with
  | (none, cacheEntry) =>
    { sent := [{ isCached := true, data := cacheEntry }], err := none, trace := [probeTv] }
  | (some _, cacheEntry) =>
  match getCacheOne cacheMovie "BaseNameHash" baseNameHash cacheEntry with
  | (none, cacheEntry) =>
    { sent := [{ isCached := true, data := cacheEntry }], err := none,
      trace := [probeTv, probeMovie] }
  | (some _, cacheEntry) =>
  -- Prepare OMDb query
  let (query, isTv) := prepareQuery mediaTitle mediaYear mediaSeason mediaEpisode
  -- OMDb query by title (type "t")
  match queryOmdb w query mediaTitle mediaYear with
  | (.error err, calls) => { sent := [], err := some err, trace := [probeTv, probeMovie] ++ calls }
  | (.ok (res, query), calls) =>
  -- We have title, year, season and episode details and attempt to lookup them in cache
  let keyId := identityKey isTv mediaTitle res query
  let probeId := Event.cacheOne isTv "Id" keyId
  match getCacheOne (if isTv then cacheTv else cacheMovie) "Id" keyId cacheEntry with
  | (none, cacheEntry) =>
    { sent := [{ isCached := true, data := cacheEntry }], err := none,
      trace := [probeTv, probeMovie] ++ calls ++ [probeId] }
  | (some _, _) =>
  let fresh :=
    resolveFresh w baseName mediaTitle mediaYear mediaSeason mediaEpisode query res isTv
  { sent := [fresh.1], err := none, trace := [probeTv, probeMovie] ++ calls ++ [probeId] ++ fresh.2 }

/-! ## main.go: the output renderer -/

/-- The state the renderer goroutine works on: the two tables with their row counters, and
the two global store handles. The field updateCalls is the log of the calls of updateCache
made so far, each with the store it was called on (true for cacheTv, false for cacheMovie)
and its argument. -/
structure Renderer where
  tvTable : List (List String) := []
  tvTableCtr : Int := 0
  movieTable : List (List String) := []
  movieTableCtr : Int := 0
  cacheTv : Option DB
  cacheMovie : Option DB
  updateCalls : List (Bool × renderTable) := []
deriving DecidableEq, Repr

/-- Reformat and push to appropriate table, caching only if needed (main, lines 181-199). -/
def Renderer.receive (r : Renderer) (v : renderTable) : Renderer :=
  if v.data.IsTv then
    let data := [v.data.Title, v.data.Year, v.data.EpisodeTitle, v.data.Season,
      v.data.EpisodeNr, v.data.ImdbRating, v.data.RtRating, v.data.McRating]
    let r := { r with tvTable := r.tvTable ++ [data], tvTableCtr := r.tvTableCtr + 1 }
    if !v.isCached then
      { r with cacheTv := (updateCache r.cacheTv v).2,
               updateCalls := r.updateCalls ++ [(true, v)] }
    else r
  else
    let data := [v.data.Title, v.data.Year, v.data.ImdbRating, v.data.RtRating,
      v.data.McRating]
    let r := { r with movieTable := r.movieTable ++ [data],
                      movieTableCtr := r.movieTableCtr + 1 }
    if !v.isCached then
      { r with cacheMovie := (updateCache r.cacheMovie v).2,
               updateCalls := r.updateCalls ++ [(false, v)] }
    else r

/-- The parsed file a worker hands to getRatings. -/
structure MediaFile where
  baseName : String
  mediaTitle : String
  mediaYear : Int
  mediaSeason : Int
  mediaEpisode : Int
deriving DecidableEq, Repr

/-- The outcome of getRatings for a file against the stores of the renderer state. -/
def resolve (w : World) (r : Renderer) (f : MediaFile) : Outcome :=
  getRatings w r.cacheTv r.cacheMovie f.baseName f.mediaTitle f.mediaYear f.mediaSeason
    f.mediaEpisode

/-- One step of a sequential run: getRatings resolves one file, then the renderer handles
every record it sent. -/
def step (w : World) (r : Renderer) (f : MediaFile) : Renderer :=
  (resolve w r f).sent.foldl Renderer.receive r

/-! ## main.go: the worker -/

/-- Permitted video extensions. -/
def videoExtensions : List String :=
  [".3g2", ".3gp", ".3gp2", ".asf", ".avi", ".divx", ".flv", ".mk3d", ".m4v", ".mk2", ".mka",
   ".mkv", ".mov", ".mp4", ".mp4a", ".mpeg", ".mpg", ".ogg", ".ogm", ".ogv", ".qt", ".ra",
   ".ram", ".rm", ".ts", ".wav", ".webm", ".wma", ".wmv", ".iso", ".vob"]

/-- The filepath.Base function with the slash as separator: the last element of the path,
after trailing slashes are dropped; "." for the empty path and "/" for a path of slashes. -/
def filepathBase (path : String) : String :=
  if path = "" then "." else
    let stripped := (path.toList.reverse.dropWhile (fun c => c == '/'))
    let last := (stripped.takeWhile (fun c => c != '/')).reverse
    if last.isEmpty then "/" else String.mk last

/-- The filepath.Ext function with the slash as separator: the suffix of the last element of
the path from its final dot on, empty when that element has no dot. -/
def filepathExt (path : String) : String :=
  let tail := path.toList.reverse.takeWhile (fun c => c != '/')
  if tail.contains '.' then String.mk ('.' :: (tail.takeWhile (fun c => c != '.')).reverse)
  else ""

/-- The fields of parsetorrentname.TorrentInfo that the worker reads. -/
structure TorrentInfo where
  Title : String := ""
  Year : Int := 0
  Season : Int := 0
  Episode : Int := 0
deriving DecidableEq, Repr

/-- What one call of getMovieInfo did: whether it stopped in a nil pointer dereference, the
lines it logged at error level, the calls of getRatings it made (as the file handed over),
and the records that reached the render channel. -/
structure WorkerOutcome where
  panicked : Bool
  errorLog : List String
  ratingsCalls : List MediaFile
  sent : List renderTable
deriving DecidableEq, Repr

/-- Gets base name, checks if suffix is in recognized media suffixes, parses media information
from the filename and gets ratings. The parameter parse is parsetorrentname.Parse: the
returned pointer (none for nil) and the returned error (none for nil). -/
def getMovieInfo (parse : String → Option TorrentInfo × Option String) (w : World)
    (cacheTv cacheMovie : Option DB) (fullPath : String) : WorkerOutcome :=
  let baseName := filepathBase fullPath
  let ext := filepathExt baseName
  if ext ∈ videoExtensions then
    let parsed := parse baseName
    let errorLog :=
      match parsed.2 with
      | some _ => ["Not able to parse: " ++ baseName]
      | none => []
    match parsed.1 with
    | none => { panicked := true, errorLog := errorLog, ratingsCalls := [], sent := [] }
    | some info =>
      -- Strip parsetorrentname() results from creeping trailing/leading dots
      let movieTitle := trimChar info.Title '.'
      let out :=
        getRatings w cacheTv cacheMovie baseName movieTitle info.Year info.Season info.Episode
      { panicked := false, errorLog := errorLog,
        ratingsCalls := [{ baseName := baseName, mediaTitle := movieTitle,
                           mediaYear := info.Year, mediaSeason := info.Season,
                           mediaEpisode := info.Episode }],
        sent := out.sent }
  else { panicked := false, errorLog := [], ratingsCalls := [], sent := [] }

/-! ## strconv.ParseFloat with bit size 32 on plain decimal numerals -/

/-- The value of a list of decimal digits. -/
def digitsValue (ds : List Char) : Nat :=
  ds.foldl (fun a c => a * 10 + (c.toNat - 48)) 0

/-- An unsigned plain decimal numeral, digits with an optional fraction part and at least one
digit in all, as numerator and denominator (a power of ten). -/
def parseDecimal (s : String) : Option (Nat × Nat) :=
  let cs := s.toList
  let ip := cs.takeWhile Char.isDigit
  match cs.dropWhile Char.isDigit with
  | [] => if ip.isEmpty then none else some (digitsValue ip, 1)
  | c :: fp =>
    if c = '.' ∧ fp.all Char.isDigit = true ∧ ¬(ip.isEmpty = true ∧ fp.isEmpty = true) then
      some (digitsValue (ip ++ fp), 10 ^ fp.length)
    else none

/-- Rounds n/d to the nearest natural number, ties to even. -/
def roundHalfEven (n d : Nat) : Nat :=
  if d < 2 * (n % d) ∨ (2 * (n % d) = d ∧ (n / d) % 2 = 1) then n / d + 1 else n / d

/-- The IEEE 754 binary32 number nearest to n/d (ties to even), for n/d zero or in the normal
range below 2^24: a pair (m, k) that stands for m / 2^k, with a significand m of 24 bits. -/
def float32Nearest (n d : Nat) : Option (Nat × Nat) :=
  if n = 0 then some (0, 0)
  else if d * 2 ^ 24 ≤ n then none
  else
    match (List.range 150).find? (fun k => decide (d * 2 ^ 23 ≤ n * 2 ^ k)) with
    | none => none
    | some k => some (roundHalfEven (n * 2 ^ k) d, k)

/-- The conversion int(f*10) of a non-negative f = m / 2^k with m below 2^24: the float64
product is exact, and the conversion to int truncates. -/
def timesTenToInt (f : Nat × Nat) : Int := ((f.1 * 10 / 2 ^ f.2 : Nat) : Int)

/-- The call strconv.ParseFloat(s, 32) followed by int(f*10), on the unsigned plain decimal
numerals of the modelled range; every other string is reported as an error here (strconv
itself accepts more forms: signs, exponents, hexadecimal, infinities). -/
def parseFloat32Times10 (s : String) : Except String Int :=
  match parseDecimal s with
  | none => .error "invalid syntax"
  | some (n, d) =>
    match float32Nearest n d with
    | none => .error "value out of the modelled range"
    | some f => .ok (timesTenToInt f)

/-! ## Vocabulary of the statements -/

/-- The key parts of a media identity in the order getRatings passes them to getCacheKey for
the Id of a record: title and year, and for TV also season and episode. -/
def idParts (isTv : Bool) (title year season episode : String) : List String :=
  if isTv then [title, year, season, episode] else [title, year]

/-- Whether a provider call returned an error. -/
def failed {α : Type} : Except String α → Bool
  | .error _ => true
  | .ok _ => false

/-- Whether a cache probe reported an error (nil handle or no match). -/
def probeMisses (db : Option DB) (fieldName : String) (value : List Nat) : Bool :=
  (getCacheOne db fieldName value {}).1.isSome

/-- Whether both basename probes of getRatings miss. -/
def baseNameMiss (cacheTv cacheMovie : Option DB) (baseName : String) : Bool :=
  probeMisses cacheTv "BaseNameHash" (getCacheKey [baseName]) &&
    probeMisses cacheMovie "BaseNameHash" (getCacheKey [baseName])

/-- Whether the event is a call of getRtScore (P2). -/
def Event.isRtCall : Event → Bool
  | .getRtScore _ _ _ _ _ => true
  | _ => false

/-- Whether the event is a call of getMcScore (P3). -/
def Event.isMcCall : Event → Bool
  | .getMcScore _ _ _ _ _ _ => true
  | _ => false

/-- A non-empty numeric string: an optional sign followed by one or more decimal digits and
nothing else. -/
def isNumeric (s : String) : Bool :=
  let ds := stripSign s.toList
  !ds.isEmpty && ds.all Char.isDigit

/-- A rating that is the sentinel or a non-empty numeric string. -/
def isRating (s : String) : Bool := s = "N/A" || isNumeric s

/-- Replaces every occurrence of a character by a list of characters: the function
strings.ReplaceAll for a pattern of one character. -/
def replaceChar (cs : List Char) (old : Char) (new : List Char) : List Char :=
  cs.flatMap (fun c => if c = old then new else [c])

/-- The phases of getRatings after a miss of both basename probes, written without the two
basename probes; getRatings_of_miss shows that getRatings equals it after such a miss. -/
def afterBaseName (w : World) (cacheTv cacheMovie : Option DB) (baseName mediaTitle : String)
    (mediaYear mediaSeason mediaEpisode : Int) : Outcome :=
  let baseNameHash := getCacheKey [baseName]
  let probes := [Event.cacheOne true "BaseNameHash" baseNameHash,
    Event.cacheOne false "BaseNameHash" baseNameHash]
  let isTv := (prepareQuery mediaTitle mediaYear mediaSeason mediaEpisode).2
  match queryOmdb w (prepareQuery mediaTitle mediaYear mediaSeason mediaEpisode).1 mediaTitle
    mediaYear with
  | (.error err, calls) => { sent := [], err := some err, trace := probes ++ calls }
  | (.ok (res, query), calls) =>
    let keyId := identityKey isTv mediaTitle res query
    if probeMisses (if isTv then cacheTv else cacheMovie) "Id" keyId then
      { sent := [(resolveFresh w baseName mediaTitle mediaYear mediaSeason mediaEpisode query res
          isTv).1],
        err := none,
        trace := probes ++ calls ++ [Event.cacheOne isTv "Id" keyId] ++
          (resolveFresh w baseName mediaTitle mediaYear mediaSeason mediaEpisode query res
            isTv).2 }
    else
      { sent := [{ isCached := true,
                   data := (getCacheOne (if isTv then cacheTv else cacheMovie) "Id" keyId {}).2 }],
        err := none,
        trace := probes ++ calls ++ [Event.cacheOne isTv "Id" keyId] }

/-! ## Concrete scenarios -/

/-- A document whose movie audience score reads 87%, whose Metascore reads 73 and whose
search result links to a media page. -/
def demoDocument : Document where
  text := fun sel =>
    if sel = rtMovieScoreSelector then " 87%" else if sel = mcMetaScoreSelector then "73" else ""
  attr := fun sel name =>
    if sel = mcResultLink ∧ name = "href" then some "/movie/the-matrix" else none

/-- The answer of OMDb for the film The Matrix, without an audience figure. -/
def matrixResult : MovieResult :=
  { Title := "The Matrix", Year := "1999", ImdbRating := "8.7", TomatoRating := "N/A",
    TomatoURL := "N/A" }

/-- OMDb knows the film The Matrix by its title alone and nothing else; the IMDB lookup
finds nothing; every page fetch succeeds with demoDocument. -/
def matrixWorld : World where
  newRequest := fun _ => .ok ()
  clientDo := fun url _ => .ok { StatusCode := 200, Url := url, Body := "" }
  newDocumentFromReader := fun _ => .ok demoDocument
  movieByTitle := fun q =>
    if q.Title = "The Matrix" ∧ q.SearchType = MovieSearch then .ok matrixResult
    else .error "Movie not found!"
  movieByImdbID := fun _ => .error "Incorrect IMDb ID."
  getImdbId := fun _ _ => .error "no IMDB match"
  parseFloatTimes10 := fun _ => .error "invalid syntax"

/-- As matrixWorld, with every page fetch timing out. -/
def offlineWorld : World :=
  { matrixWorld with clientDo := fun _ _ => .error "timeout" }

/-- As matrixWorld, with OMDb answering an empty critic score and a textual audience
figure. -/
def oddWorld : World :=
  { matrixWorld with
    movieByTitle := fun _ =>
      .ok { matrixResult with ImdbRating := "", TomatoRating := "Certified Fresh" } }

/-- The renderer state at start, with both stores open and empty. -/
def emptyStores : Renderer := { cacheTv := some [], cacheMovie := some [] }

/-- A file of The Matrix whose name carries the year. -/
def matrixFile1999 : MediaFile :=
  { baseName := "The.Matrix.1999.mkv", mediaTitle := "The Matrix", mediaYear := 1999,
    mediaSeason := 0, mediaEpisode := 0 }

/-- A file of The Matrix whose name carries no year. -/
def matrixFileNoYear : MediaFile :=
  { baseName := "The.Matrix.mkv", mediaTitle := "The Matrix", mediaYear := 0,
    mediaSeason := 0, mediaEpisode := 0 }

/-- The record getRatings assembles in matrixWorld for a file of The Matrix. -/
def matrixRecord (baseName : String) : CacheEntry :=
  { Id := getCacheKey ["The Matrix", "1999"], BaseNameHash := getCacheKey [baseName],
    Title := "The Matrix", Year := "1999", ImdbRating := "8.7", RtRating := "87",
    McRating := "73", IsTv := false }

/-- A media page without a Metascore whose user score reads 8.7. -/
def userScoreDocument : Document where
  text := fun sel => if sel = mcUserScoreSelector then "8.7" else ""
  attr := fun sel name =>
    if sel = mcResultLink ∧ name = "href" then some "/movie/the-matrix" else none

/-- As matrixWorld, with every page being userScoreDocument and the float conversion being
parseFloat32Times10. -/
def userScoreWorld : World :=
  { matrixWorld with
    newDocumentFromReader := fun _ => .ok userScoreDocument
    parseFloatTimes10 := parseFloat32Times10 }

/-- A filename parser that reports an error and still returns the title it extracted. -/
def failingParse : String → Option TorrentInfo × Option String :=
  fun _ => (some { Title := "The Matrix" }, some "no year in the name")

/-! ## Lemmas: UTF-8 bytes of strings -/

theorem char_toNat_lt (c : Char) : c.toNat < 0x110000 := by
  have h := c.valid
  simp only [Char.toNat]
  rcases h with h | ⟨_, h⟩
  · have : c.val.toNat < 55296 := h
    omega
  · exact h

theorem char_eq_of_toNat_eq {c c' : Char} (h : c.toNat = c'.toNat) : c = c' := by
  apply Char.ext
  apply UInt32.ext
  exact h

theorem utf8Bytes_append_inj {c c' : Char} {r r' : List Nat}
    (h : utf8Bytes c ++ r = utf8Bytes c' ++ r') : c = c' ∧ r = r' := by
  have hc := char_toNat_lt c
  have hc' := char_toNat_lt c'
  unfold utf8Bytes at h
  simp only at h
  split_ifs at h <;> simp only [List.cons_append, List.nil_append, List.cons.injEq] at h <;>
    first
    | (exfalso; obtain ⟨h1, -⟩ := h; omega)
    | exact ⟨char_eq_of_toNat_eq (by omega), by tauto⟩

theorem stringBytes_append (a b : String) :
    stringBytes (a ++ b) = stringBytes a ++ stringBytes b := by
  simp [stringBytes, String.toList, List.flatMap_append]

theorem flatMap_utf8Bytes_inj : ∀ (l l' : List Char),
    l.flatMap utf8Bytes = l'.flatMap utf8Bytes → l = l'
  | [], [] => fun _ => rfl
  | [], c :: l => fun h => by
    exfalso
    simp only [List.flatMap_nil, List.flatMap_cons] at h
    have := congrArg List.length h
    unfold utf8Bytes at this
    simp only at this
    split_ifs at this <;> simp at this
  | c :: l, [] => fun h => by
    exfalso
    simp only [List.flatMap_nil, List.flatMap_cons] at h
    have := congrArg List.length h
    unfold utf8Bytes at this
    simp only at this
    split_ifs at this <;> simp at this
  | c :: l, c' :: l' => fun h => by
    simp only [List.flatMap_cons] at h
    obtain ⟨h1, h2⟩ := utf8Bytes_append_inj h
    rw [h1, flatMap_utf8Bytes_inj l l' h2]

theorem stringBytes_injective {a b : String} (h : stringBytes a = stringBytes b) : a = b := by
  have := flatMap_utf8Bytes_inj _ _ h
  exact String.ext this

/-! ## Lemmas: decimal strings -/

theorem digitChar_isDigit (k : Nat) (h : k < 10) : (Nat.digitChar k).isDigit = true := by
  interval_cases k <;> decide

theorem toDigitsCore_spec (fuel : Nat) : ∀ (n : Nat) (ds : List Char),
    (∀ c ∈ ds, c.isDigit = true) →
      (∀ c ∈ Nat.toDigitsCore 10 fuel n ds, c.isDigit = true) ∧
        ds.length ≤ (Nat.toDigitsCore 10 fuel n ds).length := by
  induction fuel with
  | zero => intro n ds h; exact ⟨by simpa [Nat.toDigitsCore] using h, by simp [Nat.toDigitsCore]⟩
  | succ f ih =>
    intro n ds h
    have hd : (Nat.digitChar (n % 10)).isDigit = true :=
      digitChar_isDigit _ (Nat.mod_lt _ (by decide))
    have hcons : ∀ c ∈ Nat.digitChar (n % 10) :: ds, c.isDigit = true := by
      intro c hc
      rcases List.mem_cons.mp hc with rfl | hc
      · exact hd
      · exact h c hc
    simp only [Nat.toDigitsCore]
    split
    · exact ⟨hcons, by simp⟩
    · obtain ⟨h1, h2⟩ := ih (n / 10) _ hcons
      exact ⟨h1, by simp at h2; omega⟩

theorem toDigits_digits (n : Nat) : ∀ c ∈ Nat.toDigits 10 n, c.isDigit = true :=
  (toDigitsCore_spec (n + 1) n [] (by simp)).1

theorem toDigits_ne_nil (n : Nat) : Nat.toDigits 10 n ≠ [] := by
  unfold Nat.toDigits
  simp only [Nat.toDigitsCore]
  split
  · simp
  · have := (toDigitsCore_spec n (n / 10) [Nat.digitChar (n % 10)]
      (by intro c hc; simp at hc; subst hc; exact digitChar_isDigit _ (Nat.mod_lt _ (by decide)))).2
    intro h
    rw [h] at this
    simp at this

theorem itoa_toList (i : Int) :
    ∃ ds : List Char, ds ≠ [] ∧ (∀ c ∈ ds, c.isDigit = true) ∧
      ((itoa i).toList = ds ∨ (itoa i).toList = '-' :: ds) := by
  cases i with
  | ofNat n =>
    exact ⟨Nat.toDigits 10 n, toDigits_ne_nil n, toDigits_digits n, Or.inl rfl⟩
  | negSucc n =>
    refine ⟨Nat.toDigits 10 (n + 1), toDigits_ne_nil _, toDigits_digits _, Or.inr ?_⟩
    show ("-" ++ Nat.repr (n + 1)).toList = _
    simp [Nat.repr, String.toList, List.asString]

theorem itoa_ne_empty (i : Int) : itoa i ≠ "" := by
  obtain ⟨ds, hne, -, h | h⟩ := itoa_toList i
  · intro h0
    rw [h0] at h
    exact hne (by simpa using h.symm)
  · intro h0
    rw [h0] at h
    simp at h

theorem isNumeric_of_digits (s : String) (ds : List Char) (hne : ds ≠ [])
    (hd : ∀ c ∈ ds, c.isDigit = true) (h : s.toList = ds ∨ s.toList = '-' :: ds) :
    isNumeric s = true := by
  have hall : ds.all Char.isDigit = true := by simpa [List.all_eq_true] using hd
  have hemp : ds.isEmpty = false := by cases ds <;> simp_all
  unfold isNumeric
  rcases h with h | h
  · rw [h]
    cases ds with
    | nil => exact absurd rfl hne
    | cons c r =>
      have hc : c.isDigit = true := hd c (by simp)
      have h1 : c ≠ '-' := by rintro rfl; revert hc; decide
      have h2 : c ≠ '+' := by rintro rfl; revert hc; decide
      have hs : stripSign (c :: r) = c :: r := by
        unfold stripSign
        split
        · rename_i heq; simp at heq; exact absurd heq.1 h1
        · rename_i heq; simp at heq; exact absurd heq.1 h2
        · rfl
      simp only [hs]
      simp [hall]
  · rw [h]
    simp [stripSign, hall, hemp]

theorem isNumeric_itoa (i : Int) : isNumeric (itoa i) = true := by
  obtain ⟨ds, hne, hd, h⟩ := itoa_toList i
  exact isNumeric_of_digits _ ds hne hd h

theorem isNumeric_of_isInt (s : String) (h : isInt s = true) : isNumeric s = true := by
  unfold isInt atoi at h
  unfold isNumeric
  simp only at h ⊢
  split at h
  · simp at h
  · rename_i x hx
    split at hx
    · simp at hx
    · rename_i hcond
      simpa using hcond

/-! ## Lemmas: the control flow of getRatings -/

theorem getCacheOne_fst (db : Option DB) (f : String) (v : List Nat) (d d' : CacheEntry) :
    (getCacheOne db f v d).1 = (getCacheOne db f v d').1 := by
  unfold getCacheOne
  cases db with
  | none => rfl
  | some s => cases hs : s.one f v <;> simp [hs]

theorem getCacheOne_snd_of_miss (db : Option DB) (f : String) (v : List Nat) (d : CacheEntry)
    (h : (getCacheOne db f v d).1.isSome = true) : (getCacheOne db f v d).2 = d := by
  unfold getCacheOne at h ⊢
  cases db with
  | none => rfl
  | some s => cases hs : s.one f v <;> simp_all

theorem getRatings_of_miss (w : World) (tv mv : Option DB) (b t : String) (y s e : Int)
    (hmiss : baseNameMiss tv mv b = true) :
    getRatings w tv mv b t y s e = afterBaseName w tv mv b t y s e := by
  simp only [baseNameMiss, probeMisses, Bool.and_eq_true] at hmiss
  obtain ⟨h1, h2⟩ := hmiss
  have e1 := getCacheOne_snd_of_miss tv "BaseNameHash" (getCacheKey [b]) {} h1
  have e2 := getCacheOne_snd_of_miss mv "BaseNameHash" (getCacheKey [b]) {} h2
  rcases hp : prepareQuery t y s e with ⟨q0, isTv⟩
  rcases hq : queryOmdb w q0 t y with ⟨_ | ⟨res, q⟩, calls⟩
  all_goals
    rcases g1 : getCacheOne tv "BaseNameHash" (getCacheKey [b]) {} with ⟨_ | x1, c1⟩
    · rw [g1] at h1; simp at h1
    rcases g2 : getCacheOne mv "BaseNameHash" (getCacheKey [b]) {} with ⟨_ | x2, c2⟩
    · rw [g2] at h2; simp at h2
    rw [g1] at e1
    rw [g2] at e2
    simp only at e1 e2
    subst e1
    subst e2
    unfold getRatings afterBaseName
    simp only [g1, g2, hp, hq]
  rcases g3 : getCacheOne (if isTv = true then tv else mv) "Id" (identityKey isTv t res q) {} with
    ⟨_ | x3, c3⟩ <;> simp [probeMisses, g3]

theorem getRatings_of_tv_hit (w : World) (tv mv : Option DB) (b t : String) (y s e : Int)
    (c : CacheEntry) (h : getCacheOne tv "BaseNameHash" (getCacheKey [b]) {} = (none, c)) :
    getRatings w tv mv b t y s e =
      { sent := [{ isCached := true, data := c }], err := none,
        trace := [Event.cacheOne true "BaseNameHash" (getCacheKey [b])] } := by
  unfold getRatings
  simp only [h]

theorem getRatings_of_movie_hit (w : World) (tv mv : Option DB) (b t : String) (y s e : Int)
    (c : CacheEntry) (h1 : probeMisses tv "BaseNameHash" (getCacheKey [b]) = true)
    (h : getCacheOne mv "BaseNameHash" (getCacheKey [b]) {} = (none, c)) :
    getRatings w tv mv b t y s e =
      { sent := [{ isCached := true, data := c }], err := none,
        trace := [Event.cacheOne true "BaseNameHash" (getCacheKey [b]),
          Event.cacheOne false "BaseNameHash" (getCacheKey [b])] } := by
  have e1 := getCacheOne_snd_of_miss tv "BaseNameHash" (getCacheKey [b]) {} h1
  simp only [probeMisses] at h1
  rcases g1 : getCacheOne tv "BaseNameHash" (getCacheKey [b]) {} with ⟨_ | x1, c1⟩
  · rw [g1] at h1; simp at h1
  rw [g1] at e1
  simp only at e1
  subst e1
  unfold getRatings
  simp only [g1, h]

/-- Without a miss of both basename probes every record sent is a cache hit. -/
theorem getRatings_sent_of_not_miss (w : World) (tv mv : Option DB) (b t : String)
    (y s e : Int) (h : baseNameMiss tv mv b = false) :
    ∃ c, (getRatings w tv mv b t y s e).sent = [{ isCached := true, data := c }] := by
  by_cases h1 : probeMisses tv "BaseNameHash" (getCacheKey [b]) = true
  · have h2 : probeMisses mv "BaseNameHash" (getCacheKey [b]) = false := by
      simpa [baseNameMiss, h1] using h
    rcases g : getCacheOne mv "BaseNameHash" (getCacheKey [b]) {} with ⟨_ | x, c⟩
    · exact ⟨c, by rw [getRatings_of_movie_hit w tv mv b t y s e c h1 g]⟩
    · simp [probeMisses, g] at h2
  · rcases g : getCacheOne tv "BaseNameHash" (getCacheKey [b]) {} with ⟨_ | x, c⟩
    · exact ⟨c, by rw [getRatings_of_tv_hit w tv mv b t y s e c g]⟩
    · simp [probeMisses, g] at h1

theorem queryOmdb_ok_fields (w : World) (q q' : QueryData) (t : String) (y : Int)
    (res : MovieResult) (h : (queryOmdb w q t y).1 = .ok (res, q')) :
    q'.Title = q.Title ∧ q'.Year = q.Year ∧ q'.Season = q.Season ∧ q'.Episode = q.Episode := by
  unfold queryOmdb at h
  cases h1 : w.movieByTitle q with
  | ok r1 =>
    simp only [h1, Except.ok.injEq, Prod.mk.injEq] at h
    obtain ⟨-, rfl⟩ := h
    simp
  | error e1 =>
    cases h2 : w.getImdbId t y with
    | error e2 => simp [h1, h2] at h
    | ok id =>
      cases h3 : w.movieByImdbID { q with ImdbId := id } with
      | error e3 => simp [h1, h2, h3] at h
      | ok r3 =>
        simp only [h1, h2, h3, Except.ok.injEq, Prod.mk.injEq] at h
        obtain ⟨-, rfl⟩ := h
        simp

theorem queryOmdb_failed_iff (w : World) (q : QueryData) (t : String) (y : Int) :
    failed (queryOmdb w q t y).1 = true ↔
      failed (w.movieByTitle q) = true ∧
        (failed (w.getImdbId t y) = true ∨
          ∃ id, w.getImdbId t y = .ok id ∧
            failed (w.movieByImdbID { q with ImdbId := id }) = true) := by
  unfold queryOmdb
  cases h1 : w.movieByTitle q with
  | ok res => simp [failed]
  | error e1 =>
    cases h2 : w.getImdbId t y with
    | error e2 => simp [failed]
    | ok id =>
      cases h3 : w.movieByImdbID { q with ImdbId := id } with
      | error e3 => simp [failed, h3]
      | ok res => simp [failed, h3]

theorem queryOmdb_calls (w : World) (q : QueryData) (t : String) (y : Int) :
    ∀ ev ∈ (queryOmdb w q t y).2, ev.isRtCall = false ∧ ev.isMcCall = false := by
  unfold queryOmdb
  intro ev hev
  cases h1 : w.movieByTitle q with
  | ok r1 =>
    simp [h1] at hev
    subst hev
    simp [Event.isRtCall, Event.isMcCall]
  | error e1 =>
    cases h2 : w.getImdbId t y with
    | error e2 =>
      simp [h1, h2] at hev
      rcases hev with rfl | rfl <;> simp [Event.isRtCall, Event.isMcCall]
    | ok id =>
      cases h3 : w.movieByImdbID { q with ImdbId := id } <;>
      · simp [h1, h2, h3] at hev
        rcases hev with rfl | rfl | rfl <;> simp [Event.isRtCall, Event.isMcCall]

/-- A fresh record is the one resolveFresh assembles from the answer of P1, after misses of
the basename probes and of the identity probe. -/
theorem getRatings_fresh_inv (w : World) (tv mv : Option DB) (b t : String) (y s e : Int)
    (r : CacheEntry)
    (h : { isCached := false, data := r } ∈ (getRatings w tv mv b t y s e).sent) :
    baseNameMiss tv mv b = true ∧
    ∃ res q, (queryOmdb w (prepareQuery t y s e).1 t y).1 = .ok (res, q) ∧
      probeMisses (if (prepareQuery t y s e).2 = true then tv else mv) "Id"
        (identityKey (prepareQuery t y s e).2 t res q) = true ∧
      (getRatings w tv mv b t y s e).sent = [{ isCached := false, data := r }] ∧
      (resolveFresh w b t y s e q res (prepareQuery t y s e).2).1 =
        { isCached := false, data := r } := by
  cases hm : baseNameMiss tv mv b with
  | false =>
    obtain ⟨c, hc⟩ := getRatings_sent_of_not_miss w tv mv b t y s e hm
    rw [hc] at h
    simp at h
  | true =>
    refine ⟨rfl, ?_⟩
    rw [getRatings_of_miss w tv mv b t y s e hm] at h ⊢
    unfold afterBaseName at h ⊢
    rcases hq : queryOmdb w (prepareQuery t y s e).1 t y with ⟨_ | ⟨res, q⟩, calls⟩
    · rw [hq] at h; simp at h
    · rw [hq] at h
      simp only at h ⊢
      refine ⟨res, q, rfl, ?_⟩
      by_cases hp : probeMisses (if (prepareQuery t y s e).2 = true then tv else mv) "Id"
          (identityKey (prepareQuery t y s e).2 t res q) = true
      · simp only [hp, if_true, List.mem_singleton] at h ⊢
        exact ⟨trivial, by rw [← h], h.symm⟩
      · simp [hp] at h

theorem prepareQuery_isTv (t : String) (y s e : Int) :
    ((prepareQuery t y s e).2 = true ↔ (s > 0 ∧ e > 0)) := by
  unfold prepareQuery
  split <;> simp_all

theorem prepareQuery_fields (t : String) (y s e : Int) :
    (prepareQuery t y s e).1.Title = t ∧ (prepareQuery t y s e).1.Year = zString y ∧
    ((prepareQuery t y s e).2 = true →
      (prepareQuery t y s e).1.Season = zString s ∧
        (prepareQuery t y s e).1.Episode = zString e) := by
  unfold prepareQuery
  split <;> simp_all

theorem resolveFresh_data (w : World) (b t : String) (y s e : Int) (q : QueryData)
    (res : MovieResult) (isTv : Bool) :
    let r := (resolveFresh w b t y s e q res isTv).1
    r.isCached = false ∧ r.data.IsTv = isTv ∧ r.data.Title = t ∧ r.data.Year = res.Year ∧
    r.data.BaseNameHash = getCacheKey [b] ∧ r.data.ImdbRating = res.ImdbRating ∧
    r.data.Season = (if isTv then q.Season else "") ∧
    r.data.EpisodeNr = (if isTv then q.Episode else "") ∧
    r.data.Id = (if isTv then getCacheKey [t, res.Year, q.Season, q.Episode]
      else getCacheKey [t, res.Year]) := by
  unfold resolveFresh
  cases isTv <;> by_cases h : res.TomatoRating = "N/A" <;> simp [h] <;> split <;> simp

/-- The key fields of a fresh record, in terms of the arguments of getRatings and P1. -/
theorem fresh_record_fields (w : World) (tv mv : Option DB) (b t : String) (y s e : Int)
    (r : CacheEntry)
    (h : { isCached := false, data := r } ∈ (getRatings w tv mv b t y s e).sent) :
    r.IsTv = (prepareQuery t y s e).2 ∧ r.Title = t ∧ r.BaseNameHash = getCacheKey [b] ∧
    r.Season = (if (prepareQuery t y s e).2 then zString s else "") ∧
    r.EpisodeNr = (if (prepareQuery t y s e).2 then zString e else "") ∧
    r.Id = (if (prepareQuery t y s e).2 then getCacheKey [t, r.Year, zString s, zString e]
      else getCacheKey [t, r.Year]) := by
  obtain ⟨-, res, q, hq, -, -, hr⟩ := getRatings_fresh_inv w tv mv b t y s e r h
  obtain ⟨-, -, hqs, hqe⟩ := queryOmdb_ok_fields w _ q t y res hq
  have hd := resolveFresh_data w b t y s e q res (prepareQuery t y s e).2
  simp only [hr] at hd
  obtain ⟨-, h1, h2, h3, h4, -, h6, h7, h8⟩ := hd
  have hf := (prepareQuery_fields t y s e).2.2
  refine ⟨h1, h2, h4, ?_, ?_, ?_⟩
  · rw [h6]; split
    · rename_i hb; rw [hqs, (hf hb).1]
    · rfl
  · rw [h7]; split
    · rename_i hb; rw [hqe, (hf hb).2]
    · rfl
  · rw [h8, h3]; split
    · rename_i hb; rw [hqs, hqe, (hf hb).1, (hf hb).2]
    · rfl

theorem baseNameMiss_nil (b : String) : baseNameMiss none none b = true := by
  simp [baseNameMiss, probeMisses, getCacheOne]

theorem isRating_na : isRating "N/A" = true := by decide

theorem getRtScore_ok (w : World) (t o : String) (s : Int) (u : String) (isTv : Bool)
    (x : String) (h : getRtScore w t o s u isTv = .ok x) : isRating x = true := by
  unfold getRtScore at h
  simp only at h
  split at h
  · exact absurd h (by simp)
  · split at h <;> split at h <;> rename_i hc <;> simp only [Except.ok.injEq] at h <;> subst h
    · exact isRating_na
    · simp only [not_or, Bool.not_eq_false] at hc
      simp [isRating, isNumeric_of_isInt _ hc.2]
    · exact isRating_na
    · simp only [not_or, Bool.not_eq_false] at hc
      simp [isRating, isNumeric_of_isInt _ hc.2]

theorem getMcScore_ok (w : World) (t o : String) (y s e : Int) (isTv : Bool)
    (x : String) (h : getMcScore w t o y s e isTv = .ok x) : isRating x = true := by
  unfold getMcScore at h
  simp only at h
  split at h
  · exact absurd h (by simp)
  · split at h
    · simp only [Except.ok.injEq] at h
      subst h
      exact isRating_na
    · split at h
      · exact absurd h (by simp)
      · split at h
        · split at h
          · split at h
            · simp only [Except.ok.injEq] at h
              subst h
              exact isRating_na
            · simp only [Except.ok.injEq] at h
              subst h
              simp [isRating, isNumeric_itoa]
          · simp only [Except.ok.injEq] at h
            subst h
            exact isRating_na
        · rename_i hc
          simp only [Except.ok.injEq] at h
          subst h
          simp only [not_or, Bool.not_eq_false] at hc
          simp [isRating, isNumeric_of_isInt _ hc.2]

theorem resolveFresh_ratings (w : World) (b t : String) (y s e : Int) (q : QueryData)
    (res : MovieResult) (isTv : Bool) :
    let r := (resolveFresh w b t y s e q res isTv).1.data
    (res.TomatoRating ≠ "N/A" → r.RtRating = res.TomatoRating) ∧
    (res.TomatoRating = "N/A" → isRating r.RtRating = true) ∧
    isRating r.McRating = true := by
  have hna := isRating_na
  have hrt := getRtScore_ok w t res.Title s res.TomatoURL isTv
  have hmc := getMcScore_ok w t res.Title y s e isTv
  unfold resolveFresh
  by_cases h : res.TomatoRating = "N/A"
  · rcases hr : getRtScore w t res.Title s res.TomatoURL isTv with e1 | x1 <;>
    rcases hm : getMcScore w t res.Title y s e isTv with e2 | x2 <;>
    cases isTv <;>
    simp_all
  · rcases hm : getMcScore w t res.Title y s e isTv with e2 | x2 <;>
    cases isTv <;>
    simp_all

theorem receive_fresh (R : Renderer) (tv mv : DB) (r : CacheEntry)
    (htv : R.cacheTv = some tv) (hmv : R.cacheMovie = some mv) :
    (R.receive { isCached := false, data := r }).cacheTv =
        some (if r.IsTv then tv.save r else tv) ∧
    (R.receive { isCached := false, data := r }).cacheMovie =
        some (if r.IsTv then mv else mv.save r) := by
  unfold Renderer.receive
  cases hr : r.IsTv <;> simp [hr, htv, hmv, updateCache]

theorem getCacheOne_save_baseName (db : DB) (r : CacheEntry) (d : CacheEntry) :
    getCacheOne (some (db.save r)) "BaseNameHash" r.BaseNameHash d = (none, r) := by
  simp [getCacheOne, DB.one, DB.save]

theorem stringBytes_getCacheKeyBuf_idParts (isTv : Bool) (t y s e : String) :
    stringBytes (getCacheKeyBuf (idParts isTv t y s e)) =
      if isTv then stringBytes t ++ (stringBytes y ++ (stringBytes s ++ stringBytes e))
      else stringBytes t ++ stringBytes y := by
  cases isTv <;>
    simp [idParts, getCacheKeyBuf, stringBytes_append, List.append_assoc]

/-! ## Lemmas: the length of the digest -/

theorem sha256Round_length (v : List Nat) (kw : Nat × Nat) (h : v.length = 8) :
    (sha256Round v kw).length = 8 := by
  unfold sha256Round
  split
  · simp
  · exact h

theorem foldl_sha256Round_length (l : List (Nat × Nat)) :
    ∀ v : List Nat, v.length = 8 → (l.foldl sha256Round v).length = 8 := by
  induction l with
  | nil => intro v h; exact h
  | cons kw l ih => intro v h; exact ih _ (sha256Round_length v kw h)

theorem sha256Block_length (h block : List Nat) (hl : h.length = 8) :
    (sha256Block h block).length = 8 := by
  unfold sha256Block
  simp only [List.length_zipWith]
  rw [foldl_sha256Round_length _ h hl, hl]
  rfl

theorem foldl_sha256Block_length (bs : List (List Nat)) :
    ∀ h : List Nat, h.length = 8 → (bs.foldl sha256Block h).length = 8 := by
  induction bs with
  | nil => intro h hl; exact hl
  | cons b bs ih => intro h hl; exact ih _ (sha256Block_length h b hl)

theorem wordBytes_length (l : List Nat) :
    (l.flatMap (fun x => [(x >>> 24) % 256, (x >>> 16) % 256, (x >>> 8) % 256, x % 256])).length =
      4 * l.length := by
  induction l with
  | nil => rfl
  | cons a l ih => simp only [List.flatMap_cons, List.length_append, ih, List.length_cons,
      List.length_nil]; omega

theorem sha256_length (msg : List Nat) : (sha256 msg).length = 32 := by
  unfold sha256
  simp only
  have h8 : sha256Init.length = 8 := rfl
  rw [wordBytes_length, foldl_sha256Block_length _ sha256Init h8]

theorem sha256_byte (msg : List Nat) : ∀ b ∈ sha256 msg, b < 256 := by
  unfold sha256
  intro b hb
  simp only [List.mem_flatMap, List.mem_cons, List.mem_singleton] at hb
  obtain ⟨x, -, hx⟩ := hb
  simp only [List.not_mem_nil, or_false] at hx
  rcases hx with rfl | rfl | rfl | rfl <;> exact Nat.mod_lt _ (by decide)

theorem getCacheKeyBuf_eq_join (parts : List String) : getCacheKeyBuf parts = String.join parts :=
  rfl

theorem foldl_append_bytes (parts : List String) : ∀ acc : String,
    stringBytes (parts.foldl (fun buf v => buf ++ v) acc) =
      stringBytes acc ++ (parts.map stringBytes).flatten := by
  induction parts with
  | nil => intro acc; simp
  | cons p ps ih =>
    intro acc
    simp only [List.foldl_cons, ih, stringBytes_append, List.map_cons, List.flatten_cons,
      List.append_assoc]

theorem stringBytes_getCacheKeyBuf (parts : List String) :
    stringBytes (getCacheKeyBuf parts) = (parts.map stringBytes).flatten := by
  unfold getCacheKeyBuf
  rw [foldl_append_bytes]
  simp [stringBytes]

/-! ## Lemmas: the slug of a title -/

theorem map_filter_eq_replaceChar (cs : List Char) :
    (cs.map (fun c => if c = ' ' then '_' else c)).filter (fun c => c != ':') =
      replaceChar (replaceChar cs ' ' ['_']) ':' [] := by
  unfold replaceChar
  induction cs with
  | nil => rfl
  | cons c cs ih =>
    simp only [List.map_cons, List.flatMap_cons, List.flatMap_append, List.filter_cons, ih]
    by_cases h1 : c = ' '
    · subst h1
      simp
    · by_cases h2 : c = ':'
      · subst h2
        simp
      · simp [h1, h2]

theorem getRtName_toList (t : String) :
    (getRtName t).toList = replaceChar (replaceChar t.toList ' ' ['_']) ':' [] := by
  unfold getRtName
  exact map_filter_eq_replaceChar t.toList

theorem getRtName_no_space_no_colon (t : String) :
    ' ' ∉ (getRtName t).toList ∧ ':' ∉ (getRtName t).toList := by
  unfold getRtName
  simp only [String.toList, List.mem_filter, List.mem_map, not_and, not_exists]
  constructor
  · intro h
    obtain ⟨c, -, hc⟩ := h
    exfalso
    by_cases h1 : c = ' '
    · simp [h1] at hc
    · simp [h1] at hc
  · intro _ h
    simp at h

theorem getRtScore_depends_on_url (w w' : World) (mt ot : String) (s : Int) (u : String)
    (isTv : Bool)
    (h : getMediaDoc w (rtMediaUrl mt ot s u isTv) rtBaseUrl =
      getMediaDoc w' (rtMediaUrl mt ot s u isTv) rtBaseUrl) :
    getRtScore w mt ot s u isTv = getRtScore w' mt ot s u isTv := by
  unfold getRtScore
  simp only [h]

theorem getRtScore_fetch_error (w : World) (mt ot : String) (s : Int) (u : String)
    (isTv : Bool) (e : String)
    (h : getMediaDoc w (rtMediaUrl mt ot s u isTv) rtBaseUrl = .error e) :
    getRtScore w mt ot s u isTv = .error e := by
  unfold getRtScore
  simp only [h]

theorem getMediaDoc_newRequest_error (w : World) (url refUrl e : String)
    (h : w.newRequest url = .error e) : getMediaDoc w url refUrl = .error e := by
  unfold getMediaDoc
  simp only [h]

theorem getMediaDoc_clientDo_error (w : World) (url refUrl e : String)
    (h1 : w.newRequest url = .ok ()) (h2 : w.clientDo url refUrl = .error e) :
    getMediaDoc w url refUrl = .error e := by
  unfold getMediaDoc
  simp only [h1, h2]

theorem getRtScore_fetch_ok (w : World) (mt ot : String) (s : Int) (u : String)
    (isTv : Bool) (doc : Document)
    (h : getMediaDoc w (rtMediaUrl mt ot s u isTv) rtBaseUrl = .ok doc) :
    ∃ x, getRtScore w mt ot s u isTv = .ok x ∧ isRating x = true := by
  cases hr : getRtScore w mt ot s u isTv with
  | error e =>
    exfalso
    unfold getRtScore at hr
    simp only [h] at hr
    split_ifs at hr
  | ok x => exact ⟨x, rfl, getRtScore_ok w mt ot s u isTv x hr⟩

/-! ## The claims -/

set_option maxRecDepth 100000

/-- C1 (code defect). A movie file whose name carries no year, with both stores open and
empty and OMDb answering the year 1999: getRatings probes the movie store under the key
hash(Title, query.Year) = hash("The Matrix", "") and then stores the fresh record under the
Id hash(Title, res.Year) = hash("The Matrix", "1999"); the two keys differ. -/
theorem identity_probe_key_differs_from_stored_id :
    (resolve matrixWorld emptyStores matrixFileNoYear).sent =
        [{ isCached := false, data := matrixRecord "The.Matrix.mkv" }] ∧
      Event.cacheOne false "Id" (getCacheKey ["The Matrix", ""]) ∈
        (resolve matrixWorld emptyStores matrixFileNoYear).trace ∧
      (matrixRecord "The.Matrix.mkv").Id = getCacheKey ["The Matrix", "1999"] ∧
      getCacheKey ["The Matrix", ""] ≠ getCacheKey ["The Matrix", "1999"] := by
  decide

/-- C2 (counterexample). Season 1 episode 12 and season 11 episode 2 of the same title and
year are different identities, yet getCacheKey feeds the same bytes to SHA-256 for both, and
the two keys are equal. -/
theorem cacheKey_bytes_collide_season_episode :
    idParts true "Show" "2005" (zString 1) (zString 12) ≠
        idParts true "Show" "2005" (zString 11) (zString 2) ∧
      stringBytes (getCacheKeyBuf (idParts true "Show" "2005" (zString 1) (zString 12))) =
        stringBytes (getCacheKeyBuf (idParts true "Show" "2005" (zString 11) (zString 2))) ∧
      getCacheKey (idParts true "Show" "2005" (zString 1) (zString 12)) =
        getCacheKey (idParts true "Show" "2005" (zString 11) (zString 2)) := by
  decide

/-- C2 (amended). Two identities of the same category that differ in a key field, whose year
strings have the same byte length and, for TV, whose season strings and whose episode
strings have the same byte lengths, feed different byte strings to SHA-256. -/
theorem cacheKey_bytes_differ (isTv : Bool) (t y s e t' y' s' e' : String)
    (hy : (stringBytes y).length = (stringBytes y').length)
    (hs : isTv = true → (stringBytes s).length = (stringBytes s').length)
    (he : isTv = true → (stringBytes e).length = (stringBytes e').length)
    (hne : idParts isTv t y s e ≠ idParts isTv t' y' s' e') :
    stringBytes (getCacheKeyBuf (idParts isTv t y s e)) ≠
      stringBytes (getCacheKeyBuf (idParts isTv t' y' s' e')) := by
  intro h
  apply hne
  rw [stringBytes_getCacheKeyBuf_idParts, stringBytes_getCacheKeyBuf_idParts] at h
  cases isTv with
  | false =>
    simp only [Bool.false_eq_true, if_false] at h
    obtain ⟨h1, h2⟩ := List.append_inj' h hy
    simp [idParts, stringBytes_injective h1, stringBytes_injective h2]
  | true =>
    simp only [if_true] at h
    have hs' := hs rfl
    have he' := he rfl
    obtain ⟨h1, h2⟩ := List.append_inj' h (by simp [hy, hs', he'])
    obtain ⟨h3, h4⟩ := List.append_inj' h2 (by simp [hs', he'])
    obtain ⟨h5, h6⟩ := List.append_inj' h4 he'
    simp [idParts, stringBytes_injective h1, stringBytes_injective h3,
      stringBytes_injective h5, stringBytes_injective h6]

/-- Witness of C2 (amended): season 1 and season 2 of the same title, year and episode. -/
theorem cacheKey_bytes_differ_witness :
    (stringBytes "2005").length = (stringBytes "2005").length ∧
      (stringBytes (zString 1)).length = (stringBytes (zString 2)).length ∧
      (stringBytes (zString 12)).length = (stringBytes (zString 12)).length ∧
      idParts true "Show" "2005" (zString 1) (zString 12) ≠
        idParts true "Show" "2005" (zString 2) (zString 12) ∧
      stringBytes (getCacheKeyBuf (idParts true "Show" "2005" (zString 1) (zString 12))) ≠
        stringBytes (getCacheKeyBuf (idParts true "Show" "2005" (zString 2) (zString 12))) :=
  ⟨rfl, by decide, rfl, by decide,
    cacheKey_bytes_differ true "Show" "2005" (zString 1) (zString 12) "Show" "2005" (zString 2)
      (zString 12) rfl (fun _ => by decide) (fun _ => rfl) (by decide)⟩

/-- C3 (code defect). From empty open stores, resolving a file of The Matrix with the year in
its name persists a record; resolving a second file of the same film without the year then
replaces that record: the movie store holds a record under the same Id whose BaseNameHash
field differs, and the first record is gone. -/
theorem step_replaces_persisted_record :
    (step matrixWorld emptyStores matrixFile1999).cacheMovie =
        some [matrixRecord "The.Matrix.1999.mkv"] ∧
      (step matrixWorld (step matrixWorld emptyStores matrixFile1999)
          matrixFileNoYear).cacheMovie = some [matrixRecord "The.Matrix.mkv"] ∧
      (matrixRecord "The.Matrix.mkv").Id = (matrixRecord "The.Matrix.1999.mkv").Id ∧
      (matrixRecord "The.Matrix.mkv").BaseNameHash ≠
        (matrixRecord "The.Matrix.1999.mkv").BaseNameHash := by
  decide

/-- The second call made right after the first: with both stores open (in any state, the
empty one included), when getRatings resolves a file into a fresh record r, the renderer
persists r in the store of its category, and a call of getRatings with the same basename in
the state right after that step sends exactly r marked isCached = true, returns no error,
and its trace holds only the basename probes, the TV store first and the movie store second,
and no provider call. -/
theorem second_call_hits_basename (w w' : World) (R : Renderer) (tv mv : DB)
    (f f' : MediaFile) (r : CacheEntry)
    (htv : R.cacheTv = some tv) (hmv : R.cacheMovie = some mv)
    (hb : f'.baseName = f.baseName)
    (hfresh : (resolve w R f).sent = [{ isCached := false, data := r }]) :
    (r ∈ (if r.IsTv then (step w R f).cacheTv else (step w R f).cacheMovie).getD []) ∧
    resolve w' (step w R f) f' =
      { sent := [{ isCached := true, data := r }], err := none,
        trace :=
          if r.IsTv then [Event.cacheOne true "BaseNameHash" (getCacheKey [f.baseName])]
          else [Event.cacheOne true "BaseNameHash" (getCacheKey [f.baseName]),
                Event.cacheOne false "BaseNameHash" (getCacheKey [f.baseName])] } ∧
    (resolve w' (step w R f) f').trace.all (fun ev => !ev.isProviderCall) = true := by
  have hmem : { isCached := false, data := r } ∈ (getRatings w R.cacheTv R.cacheMovie f.baseName
      f.mediaTitle f.mediaYear f.mediaSeason f.mediaEpisode).sent := by
    have := hfresh
    unfold resolve at this
    rw [this]; simp
  obtain ⟨hmiss, -⟩ := getRatings_fresh_inv _ _ _ _ _ _ _ _ _ hmem
  have hbn := (fresh_record_fields _ _ _ _ _ _ _ _ _ hmem).2.2.1
  have hstep : step w R f = R.receive { isCached := false, data := r } := by
    unfold step; rw [hfresh]; rfl
  obtain ⟨hs1, hs2⟩ := receive_fresh R tv mv r htv hmv
  have hres : resolve w' (step w R f) f' =
      { sent := [{ isCached := true, data := r }], err := none,
        trace :=
          if r.IsTv then [Event.cacheOne true "BaseNameHash" (getCacheKey [f.baseName])]
          else [Event.cacheOne true "BaseNameHash" (getCacheKey [f.baseName]),
                Event.cacheOne false "BaseNameHash" (getCacheKey [f.baseName])] } := by
    unfold resolve
    rw [hstep, hs1, hs2, hb]
    cases hr : r.IsTv
    · simp only [Bool.false_eq_true, if_false]
      apply getRatings_of_movie_hit
      · rw [htv, hmv] at hmiss
        simp only [baseNameMiss, Bool.and_eq_true] at hmiss
        exact hmiss.1
      · rw [← hbn]; exact getCacheOne_save_baseName mv r {}
    · simp only [if_true]
      apply getRatings_of_tv_hit
      rw [← hbn]; exact getCacheOne_save_baseName tv r {}
  refine ⟨?_, hres, ?_⟩
  · rw [hstep, hs1, hs2]
    cases hr : r.IsTv <;> simp [DB.save]
  · rw [hres]
    cases hr : r.IsTv <;> simp [Event.isProviderCall]

/-- An instance of second_call_hits_basename: the file of The Matrix resolved twice in a row
from empty stores. -/
theorem second_call_hits_basename_witness :
    (resolve matrixWorld emptyStores matrixFile1999).sent =
        [{ isCached := false, data := matrixRecord "The.Matrix.1999.mkv" }] ∧
      resolve offlineWorld (step matrixWorld emptyStores matrixFile1999) matrixFile1999 =
        { sent := [{ isCached := true, data := matrixRecord "The.Matrix.1999.mkv" }],
          err := none,
          trace :=
            if (matrixRecord "The.Matrix.1999.mkv").IsTv then
              [Event.cacheOne true "BaseNameHash" (getCacheKey [matrixFile1999.baseName])]
            else [Event.cacheOne true "BaseNameHash" (getCacheKey [matrixFile1999.baseName]),
                  Event.cacheOne false "BaseNameHash"
                    (getCacheKey [matrixFile1999.baseName])] } :=
  ⟨by decide,
    (second_call_hits_basename matrixWorld offlineWorld emptyStores [] [] matrixFile1999
      matrixFile1999 (matrixRecord "The.Matrix.1999.mkv") rfl rfl rfl (by decide)).2.1⟩

/-- C4 (code defect). From empty open stores, the file The.Matrix.1999.mkv is resolved into
a fresh record that the renderer persists; then the file The.Matrix.mkv of the same film is
resolved, and its record replaces the persisted one (the defect of C1 and C3). A second call
of getRatings for The.Matrix.1999.mkv then misses both basename probes, queries OMDb, and
sends the record of the other file, found by the identity probe. -/
theorem second_call_after_replacement_queries_omdb :
    (resolve matrixWorld emptyStores matrixFile1999).sent =
        [{ isCached := false, data := matrixRecord "The.Matrix.1999.mkv" }] ∧
      (step matrixWorld emptyStores matrixFile1999).cacheMovie =
        some [matrixRecord "The.Matrix.1999.mkv"] ∧
      resolve matrixWorld
          (step matrixWorld (step matrixWorld emptyStores matrixFile1999) matrixFileNoYear)
          matrixFile1999 =
        { sent := [{ isCached := true, data := matrixRecord "The.Matrix.mkv" }],
          err := none,
          trace :=
            [Event.cacheOne true "BaseNameHash" (getCacheKey ["The.Matrix.1999.mkv"]),
             Event.cacheOne false "BaseNameHash" (getCacheKey ["The.Matrix.1999.mkv"]),
             Event.movieByTitle
               { Title := "The Matrix", Year := "1999", SearchType := MovieSearch },
             Event.cacheOne false "Id" (getCacheKey ["The Matrix", "1999"])] } ∧
      matrixRecord "The.Matrix.mkv" ≠ matrixRecord "The.Matrix.1999.mkv" ∧
      (Event.movieByTitle
        { Title := "The Matrix", Year := "1999", SearchType := MovieSearch }).isProviderCall =
        true := by
  decide

/-- C5. A record r that getRatings assembles fresh from the basename b has
BaseNameHash = getCacheKey(b) and has as Id the hash of its own identity fields:
getCacheKey(Title, Year, Season, EpisodeNr) when IsTv is true and getCacheKey(Title, Year)
when it is false. Hence two fresh records (of any two calls) with equal IsTv and equal
identity fields have equal Id. -/
theorem fresh_record_hashes (w w' : World) (tv mv tv' mv' : Option DB) (b b' t t' : String)
    (y s e y' s' e' : Int) (r r' : CacheEntry)
    (h : { isCached := false, data := r } ∈ (getRatings w tv mv b t y s e).sent)
    (h' : { isCached := false, data := r' } ∈ (getRatings w' tv' mv' b' t' y' s' e').sent) :
    r.BaseNameHash = getCacheKey [b] ∧
    r.Id = (if r.IsTv then getCacheKey [r.Title, r.Year, r.Season, r.EpisodeNr]
      else getCacheKey [r.Title, r.Year]) ∧
    (r.IsTv = r'.IsTv → r.Title = r'.Title → r.Year = r'.Year → r.Season = r'.Season →
      r.EpisodeNr = r'.EpisodeNr → r.Id = r'.Id) := by
  have key : ∀ (w : World) (tv mv : Option DB) (b t : String) (y s e : Int) (r : CacheEntry),
      { isCached := false, data := r } ∈ (getRatings w tv mv b t y s e).sent →
      r.Id = (if r.IsTv then getCacheKey [r.Title, r.Year, r.Season, r.EpisodeNr]
        else getCacheKey [r.Title, r.Year]) := by
    intro w tv mv b t y s e r h
    obtain ⟨h1, h2, -, h4, h5, h6⟩ := fresh_record_fields w tv mv b t y s e r h
    rw [h6, h1, h2]
    cases hb : (prepareQuery t y s e).2
    · simp
    · simp only [hb, if_true] at h4 h5
      simp [h4, h5]
  refine ⟨(fresh_record_fields w tv mv b t y s e r h).2.2.1, key w tv mv b t y s e r h, ?_⟩
  intro e1 e2 e3 e4 e5
  rw [key w tv mv b t y s e r h, key w' tv' mv' b' t' y' s' e' r' h', e1, e2, e3, e4, e5]

/-- Witness of C5: the two files of The Matrix, each resolved against empty stores. -/
theorem fresh_record_hashes_witness :
    ({ isCached := false, data := matrixRecord "The.Matrix.1999.mkv" } ∈
        (getRatings matrixWorld (some []) (some []) "The.Matrix.1999.mkv" "The Matrix" 1999 0
          0).sent) ∧
      ({ isCached := false, data := matrixRecord "The.Matrix.mkv" } ∈
        (getRatings matrixWorld (some []) (some []) "The.Matrix.mkv" "The Matrix" 0 0
          0).sent) ∧
      (matrixRecord "The.Matrix.1999.mkv").BaseNameHash = getCacheKey ["The.Matrix.1999.mkv"] :=
  ⟨by decide, by decide,
    (fresh_record_hashes matrixWorld matrixWorld (some []) (some []) (some []) (some [])
      "The.Matrix.1999.mkv" "The.Matrix.mkv" "The Matrix" "The Matrix" 1999 0 0 0 0 0
      (matrixRecord "The.Matrix.1999.mkv") (matrixRecord "The.Matrix.mkv") (by decide)
      (by decide)).1⟩

/-- C6. For a record that getRatings assembles fresh from the parsed integers season s and
episode e: IsTv is true exactly when s > 0 and e > 0; when IsTv is true, Season and
EpisodeNr are the decimal forms of s and e and are non-empty; when IsTv is false both are
the empty string (also when only one of s and e is positive). -/
theorem fresh_record_isTv (w : World) (tv mv : Option DB) (b t : String) (y s e : Int)
    (r : CacheEntry)
    (h : { isCached := false, data := r } ∈ (getRatings w tv mv b t y s e).sent) :
    (r.IsTv = true ↔ (s > 0 ∧ e > 0)) ∧
    (r.IsTv = true →
      r.Season = itoa s ∧ r.EpisodeNr = itoa e ∧ r.Season ≠ "" ∧ r.EpisodeNr ≠ "") ∧
    (r.IsTv = false → r.Season = "" ∧ r.EpisodeNr = "") := by
  obtain ⟨h1, -, -, h4, h5, -⟩ := fresh_record_fields w tv mv b t y s e r h
  have hiff := prepareQuery_isTv t y s e
  rw [← h1] at hiff h4 h5
  refine ⟨hiff, ?_, ?_⟩
  · intro hb
    obtain ⟨hs, he⟩ := hiff.mp hb
    have hs0 : s ≠ 0 := by omega
    have he0 : e ≠ 0 := by omega
    simp only [hb, if_true] at h4 h5
    simp only [zString, hs0, he0, if_false] at h4 h5
    exact ⟨h4, h5, by rw [h4]; exact itoa_ne_empty s, by rw [h5]; exact itoa_ne_empty e⟩
  · intro hb
    simp only [hb] at h4 h5
    exact ⟨by simpa using h4, by simpa using h5⟩

/-- Witness of C6: a file of The Matrix parsed with season 3 and episode 0 is a movie record
with empty Season and EpisodeNr. -/
theorem fresh_record_isTv_witness :
    ({ isCached := false, data := matrixRecord "The.Matrix.mkv" } ∈
        (getRatings matrixWorld (some []) (some []) "The.Matrix.mkv" "The Matrix" 0 3 0).sent) ∧
      ((matrixRecord "The.Matrix.mkv").IsTv = false →
        (matrixRecord "The.Matrix.mkv").Season = "" ∧
          (matrixRecord "The.Matrix.mkv").EpisodeNr = "") :=
  ⟨by decide,
    (fresh_record_isTv matrixWorld (some []) (some []) "The.Matrix.mkv" "The Matrix" 0 3 0
      (matrixRecord "The.Matrix.mkv") (by decide)).2.2⟩

/-- C7. For a call of getRatings that misses the basename probe (as every call does when
both stores failed to open): it returns an error exactly when the OMDb title query fails and
then the IMDB identifier lookup fails or the OMDb query by the identifier found fails; when
it returns an error nothing is sent on the channel, and when it returns no error exactly one
record is sent. -/
theorem getRatings_error_iff (w : World) (tv mv : Option DB) (b t : String) (y s e : Int)
    (hmiss : (tv = none ∧ mv = none) ∨ baseNameMiss tv mv b = true) :
    ((getRatings w tv mv b t y s e).err.isSome = true ↔
      failed (w.movieByTitle (prepareQuery t y s e).1) = true ∧
        (failed (w.getImdbId t y) = true ∨
          ∃ id, w.getImdbId t y = .ok id ∧
            failed (w.movieByImdbID { (prepareQuery t y s e).1 with ImdbId := id }) = true)) ∧
    ((getRatings w tv mv b t y s e).err.isSome = true →
      (getRatings w tv mv b t y s e).sent = []) ∧
    ((getRatings w tv mv b t y s e).err = none →
      ∃ v, (getRatings w tv mv b t y s e).sent = [v]) := by
  have hm : baseNameMiss tv mv b = true := by
    rcases hmiss with ⟨rfl, rfl⟩ | h
    · exact baseNameMiss_nil b
    · exact h
  rw [getRatings_of_miss w tv mv b t y s e hm, ← queryOmdb_failed_iff]
  unfold afterBaseName
  rcases hq : queryOmdb w (prepareQuery t y s e).1 t y with ⟨_ | ⟨res, q⟩, calls⟩
  · simp [failed]
  · by_cases hp : probeMisses (if (prepareQuery t y s e).2 = true then tv else mv) "Id"
        (identityKey (prepareQuery t y s e).2 t res q) = true <;>
      simp [failed, hp]

/-- Witness of C7: with both stores nil, a title OMDb and IMDB do not know gives an error
and nothing is sent. -/
theorem getRatings_error_iff_witness :
    (((none : Option DB) = none ∧ (none : Option DB) = none) ∨
        baseNameMiss none none "x.mkv" = true) ∧
      ((getRatings matrixWorld none none "x.mkv" "Unknown" 0 0 0).err.isSome = true →
        (getRatings matrixWorld none none "x.mkv" "Unknown" 0 0 0).sent = []) ∧
      (getRatings matrixWorld none none "x.mkv" "Unknown" 0 0 0).err.isSome = true :=
  ⟨Or.inl ⟨rfl, rfl⟩,
    (getRatings_error_iff matrixWorld none none "x.mkv" "Unknown" 0 0 0
      (Or.inl ⟨rfl, rfl⟩)).2.1,
    by decide⟩

/-- C8. For a call of getRatings that reaches gap-fill (both basename probes miss, P1
answers res, the identity probe misses): getRtScore is called exactly when res.TomatoRating
is "N/A" (once, and not at all otherwise), getMcScore is called exactly once; getRatings
returns no error and sends one record with isCached = false, whose RtRating is "N/A" if
getRtScore was called and returned an error, and whose McRating is "N/A" if getMcScore
returned an error. -/
theorem gapFill_calls_and_degrades (w : World) (tv mv : Option DB) (b t : String)
    (y s e : Int) (res : MovieResult) (q : QueryData)
    (hmiss : baseNameMiss tv mv b = true)
    (hp1 : (queryOmdb w (prepareQuery t y s e).1 t y).1 = .ok (res, q))
    (hid : probeMisses (if (prepareQuery t y s e).2 = true then tv else mv) "Id"
      (identityKey (prepareQuery t y s e).2 t res q) = true) :
    (getRatings w tv mv b t y s e).trace.filter Event.isRtCall =
      (if res.TomatoRating = "N/A" then
        [Event.getRtScore t res.Title s res.TomatoURL (prepareQuery t y s e).2]
      else []) ∧
    (getRatings w tv mv b t y s e).trace.filter Event.isMcCall =
      [Event.getMcScore t res.Title y s e (prepareQuery t y s e).2] ∧
    (getRatings w tv mv b t y s e).err = none ∧
    ∃ r, (getRatings w tv mv b t y s e).sent = [{ isCached := false, data := r }] ∧
      (res.TomatoRating = "N/A" →
        failed (getRtScore w t res.Title s res.TomatoURL (prepareQuery t y s e).2) = true →
        r.RtRating = "N/A") ∧
      (failed (getMcScore w t res.Title y s e (prepareQuery t y s e).2) = true →
        r.McRating = "N/A") := by
  rw [getRatings_of_miss w tv mv b t y s e hmiss]
  unfold afterBaseName
  have hcalls := queryOmdb_calls w (prepareQuery t y s e).1 t y
  rcases hq : queryOmdb w (prepareQuery t y s e).1 t y with ⟨x, calls⟩
  rw [hq] at hp1 hcalls
  simp only at hp1 hcalls
  subst hp1
  simp only [hid, if_true]
  have hrt : calls.filter Event.isRtCall = [] := by
    rw [List.filter_eq_nil_iff]; intro ev hev; simp [(hcalls ev hev).1]
  have hmc : calls.filter Event.isMcCall = [] := by
    rw [List.filter_eq_nil_iff]; intro ev hev; simp [(hcalls ev hev).2]
  simp only [List.filter_append, hrt, hmc, List.filter_cons, List.filter_nil, Event.isRtCall,
    Event.isMcCall, List.nil_append, List.append_nil, List.cons_append]
  unfold resolveFresh
  clear hid hq
  generalize (prepareQuery t y s e).2 = isTv
  by_cases hna : res.TomatoRating = "N/A"
  · cases hr : getRtScore w t res.Title s res.TomatoURL isTv <;>
    cases hm : getMcScore w t res.Title y s e isTv <;>
    cases isTv <;>
    simp [hna, hr, hm, failed, Event.isRtCall, Event.isMcCall]
  · cases hm : getMcScore w t res.Title y s e isTv <;>
    cases isTv <;>
    simp [hna, hm, failed, Event.isRtCall, Event.isMcCall]

/-- Witness of C8: OMDb answers without an audience figure and every page fetch times out;
the record is still sent, and both calls were made. -/
theorem gapFill_calls_and_degrades_witness :
    baseNameMiss (some []) (some []) "The.Matrix.mkv" = true ∧
      (queryOmdb offlineWorld (prepareQuery "The Matrix" 0 0 0).1 "The Matrix" 0).1 =
        .ok (matrixResult, (prepareQuery "The Matrix" 0 0 0).1) ∧
      (getRatings offlineWorld (some []) (some []) "The.Matrix.mkv" "The Matrix" 0 0
          0).trace.filter Event.isMcCall =
        [Event.getMcScore "The Matrix" matrixResult.Title 0 0 0
          (prepareQuery "The Matrix" 0 0 0).2] ∧
      (getRatings offlineWorld (some []) (some []) "The.Matrix.mkv" "The Matrix" 0 0 0).sent =
        [{ isCached := false,
           data := { matrixRecord "The.Matrix.mkv" with RtRating := "N/A", McRating := "N/A" } }] :=
  ⟨by decide, rfl,
    (gapFill_calls_and_degrades offlineWorld (some []) (some []) "The.Matrix.mkv" "The Matrix"
      0 0 0 matrixResult (prepareQuery "The Matrix" 0 0 0).1 (by decide) rfl
      (by decide)).2.1,
    by decide⟩

/-- C9 (counterexample). When OMDb answers an empty critic score and a textual audience
figure, the fresh record carries them unchanged: its ImdbRating is the empty string and its
RtRating is a text that is neither "N/A" nor numeric. -/
theorem fresh_record_rating_not_numeric :
    (getRatings oddWorld (some []) (some []) "The.Matrix.mkv" "The Matrix" 0 0 0).sent =
        [{ isCached := false,
           data := { matrixRecord "The.Matrix.mkv" with
             ImdbRating := "", RtRating := "Certified Fresh" } }] ∧
      isRating "" = false ∧ isRating "Certified Fresh" = false := by
  decide

/-- C9 (amended). For a record that getRatings assembles fresh from the answer res of P1:
McRating is "N/A" or a non-empty numeric string; RtRating is "N/A" or a non-empty numeric
string when res.TomatoRating is "N/A", and is res.TomatoRating unchanged otherwise;
ImdbRating is res.ImdbRating unchanged. -/
theorem fresh_record_ratings (w : World) (tv mv : Option DB) (b t : String) (y s e : Int)
    (r : CacheEntry)
    (h : { isCached := false, data := r } ∈ (getRatings w tv mv b t y s e).sent) :
    ∃ res q, (queryOmdb w (prepareQuery t y s e).1 t y).1 = .ok (res, q) ∧
      r.ImdbRating = res.ImdbRating ∧
      (res.TomatoRating ≠ "N/A" → r.RtRating = res.TomatoRating) ∧
      (res.TomatoRating = "N/A" → isRating r.RtRating = true) ∧
      isRating r.McRating = true := by
  obtain ⟨-, res, q, hq, -, -, hr⟩ := getRatings_fresh_inv w tv mv b t y s e r h
  have hd := resolveFresh_data w b t y s e q res (prepareQuery t y s e).2
  have hrat := resolveFresh_ratings w b t y s e q res (prepareQuery t y s e).2
  simp only [hr] at hd hrat
  exact ⟨res, q, hq, hd.2.2.2.2.2.1, hrat⟩

/-- Witness of C9 (amended): the record of The Matrix, whose audience figure comes from
RottenTomatoes and whose Metascore comes from Metacritic. -/
theorem fresh_record_ratings_witness :
    ({ isCached := false, data := matrixRecord "The.Matrix.mkv" } ∈
        (getRatings matrixWorld (some []) (some []) "The.Matrix.mkv" "The Matrix" 0 0 0).sent) ∧
      ∃ res q,
        (queryOmdb matrixWorld (prepareQuery "The Matrix" 0 0 0).1 "The Matrix" 0).1 =
          .ok (res, q) ∧
        (matrixRecord "The.Matrix.mkv").ImdbRating = res.ImdbRating ∧
        (res.TomatoRating ≠ "N/A" → (matrixRecord "The.Matrix.mkv").RtRating = res.TomatoRating) ∧
        (res.TomatoRating = "N/A" → isRating (matrixRecord "The.Matrix.mkv").RtRating = true) ∧
        isRating (matrixRecord "The.Matrix.mkv").McRating = true :=
  ⟨by decide,
    fresh_record_ratings matrixWorld (some []) (some []) "The.Matrix.mkv" "The Matrix" 0 0 0
      (matrixRecord "The.Matrix.mkv") (by decide)⟩

/-- C10. On a nil handle each of closeCache, updateCache and getCacheOne returns the error
"cache not successfully initialized" for every argument, the handle stays nil (there is no
store to access), and getCacheOne leaves its output record unchanged. -/
theorem nil_handle_operations (v : renderTable) (fieldName : String) (value : List Nat)
    (dest : CacheEntry) :
    closeCache none = (some "cache not successfully initialized", none) ∧
    updateCache none v = (some "cache not successfully initialized", none) ∧
    getCacheOne none fieldName value dest =
      (some "cache not successfully initialized", dest) :=
  ⟨rfl, rfl, rfl⟩

/-- C11. For every record v the renderer receives: its row is appended to exactly one table,
the TV table when IsTv is true and the movie table otherwise, and the other table is left as
it was; updateCache is called exactly when isCached is false, once, and then on the store of
the category of v; hence a cache-hit record changes neither store and a record never changes
the store of the other category. -/
theorem receive_appends_and_persists (R : Renderer) (v : renderTable) :
    (if v.data.IsTv then
        (R.receive v).tvTable = R.tvTable ++
          [[v.data.Title, v.data.Year, v.data.EpisodeTitle, v.data.Season, v.data.EpisodeNr,
            v.data.ImdbRating, v.data.RtRating, v.data.McRating]] ∧
        (R.receive v).movieTable = R.movieTable
      else
        (R.receive v).movieTable = R.movieTable ++
          [[v.data.Title, v.data.Year, v.data.ImdbRating, v.data.RtRating, v.data.McRating]] ∧
        (R.receive v).tvTable = R.tvTable) ∧
    (R.receive v).updateCalls =
      R.updateCalls ++ (if v.isCached then [] else [(v.data.IsTv, v)]) ∧
    (R.receive v).cacheTv =
      (if v.data.IsTv = true ∧ v.isCached = false then (updateCache R.cacheTv v).2
        else R.cacheTv) ∧
    (R.receive v).cacheMovie =
      (if v.data.IsTv = false ∧ v.isCached = false then (updateCache R.cacheMovie v).2
        else R.cacheMovie) ∧
    (v.isCached = true →
      (R.receive v).cacheTv = R.cacheTv ∧ (R.receive v).cacheMovie = R.cacheMovie) ∧
    (v.data.IsTv = true → (R.receive v).cacheMovie = R.cacheMovie) ∧
    (v.data.IsTv = false → (R.receive v).cacheTv = R.cacheTv) := by
  unfold Renderer.receive
  cases h1 : v.data.IsTv <;> cases h2 : v.isCached <;> simp

/-- C12. For every finite sequence of strings, getCacheKey is the SHA-256 digest of the bytes
of the parts written one after the other in the given order with no separator, which are
the bytes of the concatenated string; it is 32 bytes long; it depends on the parts only
through their concatenation, so getCacheKey("a", "b") = getCacheKey("ab"); and on the part
"abc" it is the digest the SHA-256 standard lists for that message. -/
theorem getCacheKey_is_digest_of_concatenation (parts parts' : List String) :
    getCacheKey parts = sha256 ((parts.map stringBytes).flatten) ∧
    getCacheKey parts = sha256 (stringBytes (String.join parts)) ∧
    (getCacheKey parts).length = 32 ∧
    (∀ b ∈ getCacheKey parts, b < 256) ∧
    (String.join parts = String.join parts' → getCacheKey parts = getCacheKey parts') ∧
    getCacheKey ["a", "b"] = getCacheKey ["ab"] ∧
    getCacheKey ["abc"] =
      [0xba, 0x78, 0x16, 0xbf, 0x8f, 0x01, 0xcf, 0xea, 0x41, 0x41, 0x40, 0xde, 0x5d, 0xae,
       0x22, 0x23, 0xb0, 0x03, 0x61, 0xa3, 0x96, 0x17, 0x7a, 0x9c, 0xb4, 0x10, 0xff, 0x61,
       0xf2, 0x00, 0x15, 0xad] := by
  refine ⟨?_, rfl, sha256_length _, sha256_byte _, ?_, rfl, by decide⟩
  · unfold getCacheKey
    rw [stringBytes_getCacheKeyBuf]
  · intro h
    unfold getCacheKey
    rw [getCacheKeyBuf_eq_join, getCacheKeyBuf_eq_join, h]

/-- C13. The page that getRtScore requests is the one at rtMediaUrl, with the base URL as
referer: an error of the request or of the HTTP client at that URL is the error getRtScore
returns, a document fetched there gives a rating, and the result depends on the world only
through that fetch. That URL is the hint itself when the hint is neither empty nor "N/A";
otherwise it is the base URL followed by "/m/" and the slug of the OMDb title for a movie,
or by "/tv/", the slug of the parsed title, "/s" and the decimal season number for TV. The
slug is the title with every space replaced by an underscore and every colon removed, so it
holds no space and no colon. -/
theorem rtMediaUrl_shape (w w' : World) (mediaTitle omdbTitle : String) (mediaSeason : Int)
    (tomatoUrl : String) (isTv : Bool) :
    (∀ e, w.newRequest (rtMediaUrl mediaTitle omdbTitle mediaSeason tomatoUrl isTv) = .error e →
      getRtScore w mediaTitle omdbTitle mediaSeason tomatoUrl isTv = .error e) ∧
    (∀ e, w.newRequest (rtMediaUrl mediaTitle omdbTitle mediaSeason tomatoUrl isTv) = .ok () →
      w.clientDo (rtMediaUrl mediaTitle omdbTitle mediaSeason tomatoUrl isTv)
        "https://www.rottentomatoes.com" = .error e →
      getRtScore w mediaTitle omdbTitle mediaSeason tomatoUrl isTv = .error e) ∧
    (∀ e, getMediaDoc w (rtMediaUrl mediaTitle omdbTitle mediaSeason tomatoUrl isTv)
        rtBaseUrl = .error e →
      getRtScore w mediaTitle omdbTitle mediaSeason tomatoUrl isTv = .error e) ∧
    (∀ doc, getMediaDoc w (rtMediaUrl mediaTitle omdbTitle mediaSeason tomatoUrl isTv)
        rtBaseUrl = .ok doc →
      ∃ x, getRtScore w mediaTitle omdbTitle mediaSeason tomatoUrl isTv = .ok x ∧
        isRating x = true) ∧
    (getMediaDoc w (rtMediaUrl mediaTitle omdbTitle mediaSeason tomatoUrl isTv) rtBaseUrl =
        getMediaDoc w' (rtMediaUrl mediaTitle omdbTitle mediaSeason tomatoUrl isTv) rtBaseUrl →
      getRtScore w mediaTitle omdbTitle mediaSeason tomatoUrl isTv =
        getRtScore w' mediaTitle omdbTitle mediaSeason tomatoUrl isTv) ∧
    (tomatoUrl ≠ "" → tomatoUrl ≠ "N/A" →
      rtMediaUrl mediaTitle omdbTitle mediaSeason tomatoUrl isTv = tomatoUrl) ∧
    (tomatoUrl = "" ∨ tomatoUrl = "N/A" →
      rtMediaUrl mediaTitle omdbTitle mediaSeason tomatoUrl false =
          "https://www.rottentomatoes.com" ++ "/m/" ++ getRtName omdbTitle ∧
        rtMediaUrl mediaTitle omdbTitle mediaSeason tomatoUrl true =
          "https://www.rottentomatoes.com" ++ "/tv/" ++ getRtName mediaTitle ++ "/s" ++
            itoa mediaSeason) ∧
    (getRtName mediaTitle).toList =
      replaceChar (replaceChar mediaTitle.toList ' ' ['_']) ':' [] ∧
    ' ' ∉ (getRtName mediaTitle).toList ∧ ':' ∉ (getRtName mediaTitle).toList ∧
    rtMediaUrl "Show: Name" "Pilot" 2 "N/A" true =
      "https://www.rottentomatoes.com/tv/Show_Name/s2" := by
  refine ⟨?_, ?_, getRtScore_fetch_error w _ _ _ _ _, getRtScore_fetch_ok w _ _ _ _ _,
    getRtScore_depends_on_url w w' _ _ _ _ _, ?_, ?_, getRtName_toList _,
    (getRtName_no_space_no_colon _).1, (getRtName_no_space_no_colon _).2, by decide⟩
  · intro e h
    exact getRtScore_fetch_error w _ _ _ _ _ e (getMediaDoc_newRequest_error w _ _ e h)
  · intro e h1 h2
    exact getRtScore_fetch_error w _ _ _ _ _ e
      (getMediaDoc_clientDo_error w _ rtBaseUrl e h1 h2)
  · intro h1 h2
    simp [rtMediaUrl, h1, h2]
  · intro h
    simp [rtMediaUrl, h, rtBaseUrl, String.append_assoc]

/-- C14 (code defect). On a media page without a Metascore whose user score reads "8.7",
getMcScore returns "86": ParseFloat with bit size 32 yields the binary32 number nearest to
8.7, which is 9122611 / 2^20 and lies below 8.7, and int(f*10) truncates 86.99999809... to
86. Among the user scores 0.0, 0.1, ..., 10.0 the same happens for the tenths listed:
the returned integer is one less than ten times the value. -/
theorem userScore_times_ten_truncated :
    getMcScore userScoreWorld "The Matrix" "The Matrix" 1999 0 0 false = .ok "86" ∧
    parseFloat32Times10 "8.7" = .ok 86 ∧
    float32Nearest 87 10 = some (9122611, 20) ∧
    9122611 * 10 < 87 * 2 ^ 20 ∧
    (List.range 101).filter
        (fun t => (float32Nearest t 10).map timesTenToInt != some ((t : Nat) : Int)) =
      [7, 9, 13, 14, 18, 19, 21, 23, 26, 28, 31, 33, 36, 38, 41, 42, 46, 47, 51, 52, 56, 57,
       61, 62, 66, 67, 71, 72, 76, 77, 82, 84, 87, 89, 92, 94, 97, 99] ∧
    (List.range 101).all
        (fun t => (float32Nearest t 10).map timesTenToInt == some ((t : Nat) : Int) ||
          (float32Nearest t 10).map timesTenToInt == some ((t : Nat) - 1 : Int)) = true := by
  refine ⟨rfl, rfl, by decide, by decide, by decide, by decide⟩

/-- C15 (counterexample). For a path with an allowed extension whose basename the parser
rejects with an error while still returning the fields it extracted, getMovieInfo logs the
failure and does not skip the file: it calls getRatings with those fields and the record
reaches the channel. (When the parser returns a nil pointer with the error, getMovieInfo
dereferences it.) -/
theorem getMovieInfo_resolves_after_parse_error :
    filepathExt (filepathBase "/media/The.Matrix.mkv") ∈ videoExtensions ∧
    (failingParse (filepathBase "/media/The.Matrix.mkv")).2 = some "no year in the name" ∧
    getMovieInfo failingParse matrixWorld (some []) (some []) "/media/The.Matrix.mkv" =
      { panicked := false,
        errorLog := ["Not able to parse: The.Matrix.mkv"],
        ratingsCalls := [matrixFileNoYear],
        sent := [{ isCached := false, data := matrixRecord "The.Matrix.mkv" }] } ∧
    (getMovieInfo (fun _ => (none, some "no title in the name")) matrixWorld (some [])
      (some []) "/media/The.Matrix.mkv").panicked = true := by
  decide

/-- C15 (amended). For every path with an allowed video extension whose basename the parser
rejects with an error while returning a result with the fields it extracted, getMovieInfo
logs the failure and proceeds with those fields: it calls getRatings exactly once, with the
basename, the returned title trimmed of leading and trailing dots, and the returned year,
season and episode, and the records that reach the channel are exactly those that this
call of getRatings sends. -/
theorem getMovieInfo_logs_and_proceeds (parse : String → Option TorrentInfo × Option String)
    (w : World) (cacheTv cacheMovie : Option DB) (fullPath : String) (info : TorrentInfo)
    (err : String)
    (hext : filepathExt (filepathBase fullPath) ∈ videoExtensions)
    (hparse : parse (filepathBase fullPath) = (some info, some err)) :
    getMovieInfo parse w cacheTv cacheMovie fullPath =
      { panicked := false,
        errorLog := ["Not able to parse: " ++ filepathBase fullPath],
        ratingsCalls :=
          [{ baseName := filepathBase fullPath, mediaTitle := trimChar info.Title '.',
             mediaYear := info.Year, mediaSeason := info.Season,
             mediaEpisode := info.Episode }],
        sent := (getRatings w cacheTv cacheMovie (filepathBase fullPath)
          (trimChar info.Title '.') info.Year info.Season info.Episode).sent } := by
  unfold getMovieInfo
  simp only [hext, if_true, hparse]

/-- Witness of C15 (amended): the file of The Matrix with the parser failingParse. -/
theorem getMovieInfo_logs_and_proceeds_witness :
    filepathExt (filepathBase "/media/The.Matrix.mkv") ∈ videoExtensions ∧
      failingParse (filepathBase "/media/The.Matrix.mkv") =
        (some { Title := "The Matrix" }, some "no year in the name") ∧
      (getMovieInfo failingParse matrixWorld (some []) (some [])
          "/media/The.Matrix.mkv").errorLog =
        ["Not able to parse: " ++ filepathBase "/media/The.Matrix.mkv"] :=
  ⟨by decide, rfl,
    congrArg WorkerOutcome.errorLog
      (getMovieInfo_logs_and_proceeds failingParse matrixWorld (some []) (some [])
        "/media/The.Matrix.mkv" { Title := "The Matrix" } "no year in the name" (by decide)
        rfl)⟩

end MediaScore
